import Mathlib

/-!
Shallow embedding of the data-cleaning utilities in scripts/utils.py
(pandas/numpy/scipy code), together with proofs about the behaviour of
elegir_imputacion, evaluar_fila, limpiar_texto, resumen_nulos and
convertir_a_fecha.

Modelling conventions:
* a pandas cell is a Cell: null models NaN/NaT/None, num models float
  values (as rationals), str models Python strings, date models datetime64
  values (as an abstract integer timestamp);
* a DataFrame is a DF: a list of column names, a parallel list of dtypes,
  and a list of rows (each row a list of cells, column-aligned with names),
  matching the ordered-collection-of-rows data model;
* numeric NaN propagation is modelled with Option: an operation that
  yields NaN in pandas/numpy yields none here; Python float comparisons
  involving NaN are false, modelled explicitly (nanGT);
* exceptions that the code catches (the IndexError of the scipy mode
  lookup on an empty group) are modelled as Option lookups returning none.
-/

namespace Proyecto

/-- A cell of a pandas DataFrame: null (NaN/NaT/None), a float value
(modelled as a rational), a string, or a datetime value (modelled as an
integer timestamp). -/
inductive Cell where
  | null : Cell
  | num : ℚ → Cell
  | str : String → Cell
  | date : ℤ → Cell
  deriving DecidableEq

/-- Column dtypes relevant to the code: pandas object (strings), float64,
datetime64. -/
inductive Dtype where
  | object : Dtype
  | float : Dtype
  | datetime : Dtype
  deriving DecidableEq

/-- A DataFrame: column names in order, their dtypes, and the rows (each
row a list of cells aligned with the column names). -/
structure DF where
  names : List String
  dtypes : List Dtype
  rows : List (List Cell)
  deriving DecidableEq

/-- Reading the cell of a row at a column position (out of range reads as
null; well-formed frames have rows of the same length as names). -/
def getCell (r : List Cell) (j : ℕ) : Cell := r.getD j Cell.null

/-- Position of the first column with the given name, if any. -/
def colIdxAux (name : String) : List String → Option ℕ
  | [] => none
  | n :: ns => if n = name then some 0 else (colIdxAux name ns).map (· + 1)

/-- Position of a named column in a frame (df.columns lookup). -/
def colIdx (df : DF) (name : String) : Option ℕ := colIdxAux name df.names

/-- Cells of a named column, in row order. -/
def colCells (df : DF) (name : String) : List Cell :=
  match colIdx df name with
  | some j => df.rows.map (fun r => getCell r j)
  | none => []

/-- Series.dropna(): the non-null values of a numeric series, in order. -/
def dropna (s : List (Option ℚ)) : List ℚ := s.filterMap id

/-- Effect of Series.fillna(v) on one entry: a null entry becomes v, a
non-null entry is kept. When v is itself NaN (none), nulls stay null, as
in pandas. -/
def fillCell (v : Option ℚ) : Option ℚ → Option ℚ
  | some x => some x
  | none => v

/-- Series.fillna(v): null entries become v, non-null entries are kept. -/
def fillna (s : List (Option ℚ)) (v : Option ℚ) : List (Option ℚ) :=
  s.map (fillCell v)

/-- Linear-interpolation percentile of a list of rationals at an integral
percent level p (the code only uses the levels 25, 50 and 75), as computed
by np.nanpercentile / np.percentile with the default linear interpolation:
sort ascending, take the rank h = (n-1)*p/100, and interpolate linearly
between the values at positions floor h and floor h + 1. Writing
m = (n-1)*p, the floor is m / 100 in ℕ and the fractional part is
(m % 100)/100. Empty input yields none, modelling the NaN that numpy
returns (with a warning, not an exception). -/
def percentile (l : List ℚ) (p : ℕ) : Option ℚ :=
  match List.insertionSort (fun a b => a ≤ b) l with
  | [] => none
  | x :: s =>
    let srt := x :: s
    let m : ℕ := (srt.length - 1) * p
    let i : ℕ := m / 100
    let g : ℚ := ((m % 100 : ℕ) : ℚ) / 100
    some (srt.getD i 0 + g * (srt.getD (i + 1) 0 - srt.getD i 0))

/-- calcular_iqr from the source: q1, q3 = np.nanpercentile(series.dropna(),
[25, 75]); return q3 - q1. On a series with no non-null values the dropna
result is empty and numpy's size == 0 branch returns a single scalar NaN
(np.nanmean, ignoring the [25, 75] list), so the two-element q1, q3
unpack raises an uncaught TypeError; none models that raise. On a
non-empty series both percentiles are real numbers and the IQR is
returned. -/
def calcular_iqr (series : List (Option ℚ)) : Option ℚ :=
  match percentile (dropna series) 25, percentile (dropna series) 75 with
  | some q1, some q3 => some (q3 - q1)
  | _, _ => none

/-- Series.median(): linear-interpolation median of the non-null values
(the 50th percentile); NaN (none) when every value is null. -/
def serieMedian (s : List (Option ℚ)) : Option ℚ := percentile (dropna s) 50

/-- First element of a list attaining the maximal value of f (np.argmax
keeps the first of several maxima). -/
def firstArgmax (f : ℚ → ℕ) : List ℚ → Option ℚ
  | [] => none
  | x :: xs =>
    match firstArgmax f xs with
    | none => some x
    | some y => if f x < f y then some y else some x

/-- Number of occurrences of a value in a list of rationals. -/
def countVal (x : ℚ) : List ℚ → ℕ
  | [] => 0
  | y :: ys => (if y = x then 1 else 0) + countVal x ys

/-- scipy.stats.mode on a list of floats: the unique values are sorted
ascending (np.unique) and the first one with maximal count is returned,
so ties are broken towards the smallest value. On an empty list the mode
lookup mode(...)[0][0] fails with IndexError, modelled as none. -/
def scipyMode (l : List ℚ) : Option ℚ :=
  firstArgmax (fun v => countVal v l) (List.insertionSort (fun a b => a ≤ b) l.dedup)

/-- The single fill value imputar_fecha uses on a group whose IQR
computation returned the dispersion d: the median when d strictly exceeds
the threshold; otherwise the scipy mode of the non-null values, with the
source's except IndexError fallback to the median. The fallback mirrors
the try/except and is unreachable on the groups that get here (the IQR
only returns when the group has a non-null value, and then the mode
exists). -/
def fillValue (umbral d : ℚ) (grupo : List (Option ℚ)) : Option ℚ :=
  if umbral < d then
    serieMedian grupo
  else
    match scipyMode (dropna grupo) with
    | some m => some m
    | none => serieMedian grupo

/-- imputar_fecha from the source: compute the dispersion, then fill the
group's nulls with the value the dispersion rule selects. On a group with
no non-null values calcular_iqr raises the uncaught TypeError of the
scalar-NaN unpack, before and outside the try/except IndexError, and the
exception propagates out of imputar_fecha; none models that raise. -/
def imputar_fecha (umbral : ℚ) (grupo : List (Option ℚ)) : Option (List (Option ℚ)) :=
  match calcular_iqr grupo with
  | none => none
  | some dispersion => some (fillna grupo (fillValue umbral dispersion grupo))

/-- The series of target values of the rows whose group key equals k, in
row order (the group that pandas groupby forms for key k). -/
def groupSeries (rs : List (List Cell × Option ℚ)) (k : List Cell) : List (Option ℚ) :=
  (rs.filter (fun r => decide (r.1 = k))).map (fun r => r.2)

/-- Position of row i inside its group: the number of earlier rows with
the same key. -/
def rankBefore (rs : List (List Cell × Option ℚ)) (k : List Cell) (i : ℕ) : ℕ :=
  ((rs.take i).filter (fun r => decide (r.1 = k))).length

/-- Value the transform assigns to row i, when no group raised: the
result of imputar_fecha on the row's group, at the row's position inside
the group; a row whose key contains a null belongs to no group and
receives NaN. -/
def transformRow (umbral : ℚ) (rs : List (List Cell × Option ℚ)) (i : ℕ) : Option ℚ :=
  let k := (rs.getD i ([], none)).1
  if Cell.null ∈ k then none
  else
    match imputar_fecha umbral (groupSeries rs k) with
    | some g => g.getD (rankBefore rs k i) none
    | none => none

/-- Whether the group of this row makes imputar_fecha raise: the row has
a proper (null-free) key and its group has no non-null target value. -/
def groupFails (umbral : ℚ) (rs : List (List Cell × Option ℚ))
    (r : List Cell × Option ℚ) : Bool :=
  !decide (Cell.null ∈ r.1) && decide (imputar_fecha umbral (groupSeries rs r.1) = none)

/-- groupby(agrupacion)[columna].transform(imputar_fecha): imputar_fecha
runs on every group, so if it raises on some group (all target values
null) the exception propagates and the transform produces nothing (none).
Otherwise every row receives the value of its group's result at the row's
position inside the group. Rows whose key contains a null are dropped
from every group (pandas groupby dropna=True, the default in every
pandas version) and receive NaN in the transform output. -/
def transformImpute (umbral : ℚ) (rs : List (List Cell × Option ℚ)) :
    Option (List (Option ℚ)) :=
  if rs.any (groupFails umbral rs) then none
  else some ((List.range rs.length).map (transformRow umbral rs))

/-- Group key of a row: the cells of the grouping columns, in the order
of agrupacion. A grouping column missing from the frame would raise a
KeyError in pandas; no claim exercises that case, and it is modelled as a
null key component. -/
def rowKey (df : DF) (agrupacion : List String) (r : List Cell) : List Cell :=
  agrupacion.map (fun a =>
    match colIdx df a with
    | some ja => getCell r ja
    | none => Cell.null)

/-- Numeric view of a cell: floats are values, everything else reads as
NaN for numeric aggregation. -/
def cellNum : Cell → Option ℚ
  | Cell.num q => some q
  | _ => none

/-- Writing a numeric series value back into a cell. -/
def optCell : Option ℚ → Cell
  | some q => Cell.num q
  | none => Cell.null

/-- The (group key, target value) pairs the groupby sees, one per row; j
is the position of the target column. -/
def imputeRows (df : DF) (agrupacion : List String) (j : ℕ) :
    List (List Cell × Option ℚ) :=
  df.rows.map (fun r => (rowKey df agrupacion r, cellNum (getCell r j)))

/-- elegir_imputacion from the source: df[columna] =
df.groupby(agrupacion)[columna].transform(imputar_fecha); return df.
The result is none when the call raises instead of returning: the
KeyError of a missing target column, or the TypeError that calcular_iqr
raises on a group whose target values are all null. -/
def elegir_imputacion (df : DF) (columna : String) (agrupacion : List String)
    (umbral : ℚ) : Option DF :=
  match colIdx df columna with
  | none => none
  | some j =>
    match transformImpute umbral (imputeRows df agrupacion j) with
    | none => none
    | some vals =>
      some { df with rows := List.zipWith (fun r v => r.set j (optCell v)) df.rows vals }

/-- Rows of a frame selected by a Boolean row predicate (boolean-mask
selection df[mask]). -/
def filterRows (df : DF) (p : List Cell → Bool) : DF :=
  { df with rows := df.rows.filter p }

/-- Cell of a row in a named column (a df[name] read restricted to one
row). A missing column would raise a KeyError in pandas; no claim
exercises that case, and it reads as null here. -/
def cellAt (df : DF) (name : String) (r : List Cell) : Cell :=
  match colIdx df name with
  | some j => getCell r j
  | none => Cell.null

/-- df[cols].notnull().sum(axis=1) restricted to one row: how many of the
listed columns hold a non-null value in this row (a column listed twice is
counted twice, as pandas selection duplicates it). -/
def notnullKeyCount (df : DF) (cols : List String) (r : List Cell) : ℕ :=
  (cols.filter (fun c => decide (cellAt df c r ≠ Cell.null))).length

/-- evaluar_fila from the source. df_nulo is the subframe of rows whose
target column is null; each such row gets the fraction of the key columns
holding non-null values (stored in a helper column that is dropped again
before returning, hence not materialized here), and the rows whose
fraction is strictly below the threshold are returned. When
columnas_clave is empty the fraction is 0/0, NaN in pandas, and the NaN
comparison is false, so no row qualifies; the length guard models that.
A missing target column would raise a KeyError in pandas; no claim
exercises that case, and the frame is returned unchanged. -/
def evaluar_fila (df : DF) (columna_nula : String) (columnas_clave : List String)
    (umbral : ℚ) : DF :=
  match colIdx df columna_nula with
  | none => df
  | some j =>
    let df_nulo := filterRows df (fun r => decide (getCell r j = Cell.null))
    filterRows df_nulo (fun r =>
      decide (columnas_clave.length ≠ 0) &&
      decide ((notnullKeyCount df_nulo columnas_clave r : ℚ) /
        (columnas_clave.length : ℚ) < umbral))

/-- Models Series.str.strip() on one cell of an object column: strings are
trimmed of surrounding whitespace, nulls stay null, and non-string values
become NaN under the .str accessor. -/
def cellStrip : Cell → Cell
  | Cell.str s => Cell.str s.trim
  | _ => Cell.null

/-- Models Series.str.lower() on one cell of an object column. -/
def cellLower : Cell → Cell
  | Cell.str s => Cell.str s.toLower
  | _ => Cell.null

/-- Applies a cell transformation to the column at position j of every
row (a df[col] = f(df[col]) assignment). -/
def mapCol (df : DF) (j : ℕ) (f : Cell → Cell) : DF :=
  { df with rows := df.rows.map (fun r => r.set j (f (getCell r j))) }

/-- One iteration of the limpiar_texto loop: if the listed column is
present in the frame and object-typed, strip surrounding whitespace from
every value, and additionally lowercase unless the column is listed in
conservar_mayusculas; otherwise the guard skips the column. -/
def limpiarStep (conservar_mayusculas : List String) (d : DF) (columna : String) : DF :=
  match colIdx d columna with
  | some j =>
    if d.dtypes.getD j Dtype.float = Dtype.object then
      let d1 := mapCol d j cellStrip
      if columna ∈ conservar_mayusculas then d1 else mapCol d1 j cellLower
    else d
  | none => d

/-- limpiar_texto from the source: the loop over the listed columns. -/
def limpiar_texto (df : DF) (columnas : List String)
    (conservar_mayusculas : List String) : DF :=
  columnas.foldl (limpiarStep conservar_mayusculas) df

/-- Net effect of limpiar_texto on one cell of a cleaned column:
stripping, followed by lowercasing unless the column keeps its
capitalization. -/
def cleanCell (keepCase : Bool) (c : Cell) : Cell :=
  if keepCase then cellStrip c else cellLower (cellStrip c)

/-- Models pd.to_datetime(value, errors="coerce") on one cell, for an
arbitrary date parser: values the parser accepts become datetime values
and every other value becomes null (NaT); no exception escapes. -/
def toDatetimeCoerce (parse : Cell → Option ℤ) (c : Cell) : Cell :=
  match parse c with
  | some t => Cell.date t
  | none => Cell.null

/-- One iteration of the convertir_a_fecha loop: df[columna] =
pd.to_datetime(df[columna], errors="coerce"), which also retypes the
column to datetime64. The date parser is a parameter of the model. A
listed column missing from the frame would raise a KeyError in pandas;
no claim exercises that case, and it is skipped. -/
def fechaStep (parse : Cell → Option ℤ) (d : DF) (columna : String) : DF :=
  match colIdx d columna with
  | some j =>
    { d with
      rows := d.rows.map (fun r => r.set j (toDatetimeCoerce parse (getCell r j))),
      dtypes := d.dtypes.set j Dtype.datetime }
  | none => d

/-- convertir_a_fecha from the source: the loop over the listed columns. -/
def convertir_a_fecha (parse : Cell → Option ℤ) (df : DF) (columnas : List String) : DF :=
  columnas.foldl (fechaStep parse) df

/-- Number of null cells in the column at position j (one entry of
df.isnull().sum()). -/
def countNullsAt (df : DF) (j : ℕ) : ℕ :=
  (df.rows.filter (fun r => decide (getCell r j = Cell.null))).length

/-- One row of the null summary: column name, null count, and null count
divided by the row count, expressed as a percentage. -/
def nullSummaryRow (df : DF) (j : ℕ) (nm : String) : String × ℕ × ℚ :=
  (nm, countNullsAt df j, ((countNullsAt df j : ℚ) / (df.rows.length : ℚ)) * 100)

/-- resumen_nulos from the source: per-column null count and null
percentage, sorted by percentage in descending order
(sort_values(ascending=False)). -/
def resumen_nulos (df : DF) : List (String × ℕ × ℚ) :=
  List.insertionSort (fun a b => b.2.2 ≤ a.2.2)
    (df.names.enum.map (fun e => nullSummaryRow df e.1 e.2))

/-- Witness frame for the imputation decision rule: one group with a wide
spread (IQR above the default threshold) and one null. -/
def dfW1 : DF :=
  { names := ["g", "x"]
    dtypes := [Dtype.object, Dtype.float]
    rows := [[Cell.str "b", Cell.num 10], [Cell.str "b", Cell.null],
             [Cell.str "b", Cell.num 900], [Cell.str "b", Cell.num 5],
             [Cell.str "b", Cell.num 1000]] }

/-- Counterexample frame: the grouping column holds a null, the target
column holds a non-null value and a null in that null-keyed group. -/
def dfX1 : DF :=
  { names := ["g", "x"]
    dtypes := [Dtype.object, Dtype.float]
    rows := [[Cell.null, Cell.num 5], [Cell.null, Cell.null]] }

/-- Witness frame for the post-imputation invariant: one ordinary group
containing a null and a non-null value. -/
def dfW2 : DF :=
  { names := ["g", "x"]
    dtypes := [Dtype.object, Dtype.float]
    rows := [[Cell.str "a", Cell.num 10], [Cell.str "a", Cell.null]] }

/-- Counterexample frame for the post-imputation invariant: a null-keyed
group with one non-null target value. -/
def dfX2 : DF :=
  { names := ["g", "x"]
    dtypes := [Dtype.object, Dtype.float]
    rows := [[Cell.null, Cell.num 5], [Cell.null, Cell.null]] }

/-- Witness frame for the frame-effect contract: two proper groups, an
extra column, a null to fill. -/
def dfW4 : DF :=
  { names := ["g", "x", "y"]
    dtypes := [Dtype.object, Dtype.float, Dtype.float]
    rows := [[Cell.str "a", Cell.num 10, Cell.num 7],
             [Cell.str "a", Cell.null, Cell.num 8],
             [Cell.str "c", Cell.num 20, Cell.null]] }

/-- Counterexample frame for the frame-effect contract: a single row whose
grouping key is null and whose target value is non-null. -/
def dfX4 : DF :=
  { names := ["g", "x"]
    dtypes := [Dtype.object, Dtype.float]
    rows := [[Cell.null, Cell.num 5]] }

/-- Witness frame for idempotence: a fully imputed target column over a
proper group. -/
def dfW5 : DF :=
  { names := ["g", "x"]
    dtypes := [Dtype.object, Dtype.float]
    rows := [[Cell.str "a", Cell.num 10], [Cell.str "a", Cell.num 20]] }

/-- Counterexample frame for idempotence: the target column has no nulls,
but the grouping column holds a null. -/
def dfX5 : DF :=
  { names := ["g", "x"]
    dtypes := [Dtype.object, Dtype.float]
    rows := [[Cell.null, Cell.num 1]] }

/-- Failing input for the all-null-group raise: one proper group, every
target value null. -/
def dfX3 : DF :=
  { names := ["g", "x"]
    dtypes := [Dtype.object, Dtype.float]
    rows := [[Cell.str "a", Cell.null], [Cell.str "a", Cell.null]] }

/-- Frame whose single proper group is entirely null, so the call raises
(used against the entirely-null-groups clause). -/
def dfX2r : DF :=
  { names := ["g", "x"]
    dtypes := [Dtype.object, Dtype.float]
    rows := [[Cell.str "b", Cell.null]] }

/-- Frame with proper grouping keys and an all-null group next to a
filled one, so the call raises and preserves nothing. -/
def dfX4r : DF :=
  { names := ["g", "x"]
    dtypes := [Dtype.object, Dtype.float]
    rows := [[Cell.str "a", Cell.num 1], [Cell.str "c", Cell.null]] }

/-- Witness frame for the row-risk evaluator. -/
def dfW6 : DF :=
  { names := ["x", "a", "b"]
    dtypes := [Dtype.float, Dtype.float, Dtype.float]
    rows := [[Cell.null, Cell.num 1, Cell.null],
             [Cell.null, Cell.num 1, Cell.num 2],
             [Cell.num 3, Cell.num 1, Cell.num 2]] }

/-- Witness frame for the text cleaner: an object column to clean, an
object column whose capitalization is preserved, a numeric column. -/
def dfW7 : DF :=
  { names := ["s", "t", "n"]
    dtypes := [Dtype.object, Dtype.object, Dtype.float]
    rows := [[Cell.str "  Ab  ", Cell.str " Cd ", Cell.num 1]] }

/-- Witness frame for the date coercion. -/
def dfW9 : DF :=
  { names := ["d", "n"]
    dtypes := [Dtype.object, Dtype.float]
    rows := [[Cell.str "2020-01-01", Cell.num 1], [Cell.str "garbage", Cell.num 2]] }

/-- Witness date parser: accepts exactly the string 2020-01-01. -/
def parseW9 : Cell → Option ℤ
  | Cell.str "2020-01-01" => some 18262
  | _ => none

/-- Witness frame for the text-cleaner totality guard: a numeric column
that is listed, next to a listed name that is absent. -/
def dfW10 : DF :=
  { names := ["n"]
    dtypes := [Dtype.float]
    rows := [[Cell.num 1]] }

/-- Decision-rule contract for one group of elegir_imputacion with
grouping key k, target column position j, group series grupo and IQR d:
the group's median and mode exist, the mode is a most frequent non-null
value with ties broken towards the smallest value, and whenever the call
returns a frame (it raises when some group's target values are all null),
every row of the group whose target cell was null holds the median when
the IQR strictly exceeds the threshold, and the mode otherwise (hence
also when the IQR equals the threshold). -/
def MedianModeRule (df : DF) (columna : String) (agrupacion : List String) (umbral : ℚ)
    (j : ℕ) (k : List Cell) (grupo : List (Option ℚ)) (d : ℚ) : Prop :=
  (∃ mm, serieMedian grupo = some mm) ∧
  (∃ mo, scipyMode (dropna grupo) = some mo ∧ mo ∈ dropna grupo ∧
    (∀ y ∈ dropna grupo, countVal y (dropna grupo) ≤ countVal mo (dropna grupo)) ∧
    (∀ y ∈ dropna grupo, countVal y (dropna grupo) = countVal mo (dropna grupo) → mo ≤ y)) ∧
  (∀ (out : DF), elegir_imputacion df columna agrupacion umbral = some out →
    ∀ (i : ℕ) (r : List Cell), df.rows[i]? = some r → rowKey df agrupacion r = k →
    getCell r j = Cell.null →
    (umbral < d → out.rows[i]? = some (r.set j (optCell (serieMedian grupo)))) ∧
    (d ≤ umbral → out.rows[i]? = some (r.set j (optCell (scipyMode (dropna grupo))))))

/-- Post-imputation invariant for one group of elegir_imputacion with key
k and group series grupo: whenever the call returns a frame, every row of
the group ends with a non-null numeric target cell (a properly-keyed
group that reaches the output necessarily had a non-null value); and if
the group is entirely null and inhabited, the call raises instead of
returning. -/
def GroupNullInvariant (df : DF) (columna : String) (agrupacion : List String)
    (umbral : ℚ) (j : ℕ) (k : List Cell) (grupo : List (Option ℚ)) : Prop :=
  (∀ (out : DF), elegir_imputacion df columna agrupacion umbral = some out →
    ∀ (i : ℕ) (r : List Cell), df.rows[i]? = some r → rowKey df agrupacion r = k →
      ∃ r2, out.rows[i]? = some r2 ∧ ∃ q, getCell r2 j = Cell.num q) ∧
  (dropna grupo = [] →
    ∀ (i : ℕ) (r : List Cell), df.rows[i]? = some r → rowKey df agrupacion r = k →
      elegir_imputacion df columna agrupacion umbral = none)

/-- Frame-effect contract of elegir_imputacion for a target column at
position j: the call returns a frame with the same column names, dtypes
and row count, every row keeps its position and its cells outside the
target column, and a row whose target cell holds a numeric value is
completely unchanged. -/
def FrameEffectContract (df : DF) (columna : String) (agrupacion : List String)
    (umbral : ℚ) (j : ℕ) : Prop :=
  ∃ out, elegir_imputacion df columna agrupacion umbral = some out ∧
    out.names = df.names ∧ out.dtypes = df.dtypes ∧
    out.rows.length = df.rows.length ∧
    (∀ (i : ℕ) (r : List Cell), df.rows[i]? = some r →
      ∃ r2, out.rows[i]? = some r2 ∧
        r2.length = r.length ∧
        (∀ j2, j2 ≠ j → r2[j2]? = r[j2]?) ∧
        (∀ q, getCell r j = Cell.num q → r2 = r))

/-- Contract of limpiar_texto: names, dtypes and row count preserved;
in every row, a column that is listed and object-typed is stripped (and
lowercased unless excluded), while columns that are not listed, or not
object-typed, keep their cells. -/
def CleanTextContract (df : DF) (columnas conservar : List String) : Prop :=
  (limpiar_texto df columnas conservar).names = df.names ∧
  (limpiar_texto df columnas conservar).dtypes = df.dtypes ∧
  (limpiar_texto df columnas conservar).rows.length = df.rows.length ∧
  (∀ (i : ℕ) (r : List Cell), df.rows[i]? = some r →
    ∃ r2, (limpiar_texto df columnas conservar).rows[i]? = some r2 ∧
      r2.length = r.length ∧
      (∀ (j2 : ℕ) (nm : String), df.names[j2]? = some nm →
        ((nm ∈ columnas → df.dtypes.getD j2 Dtype.float = Dtype.object →
           r2[j2]? = some (cleanCell (decide (nm ∈ conservar)) (getCell r j2))) ∧
         (nm ∉ columnas → r2[j2]? = r[j2]?) ∧
         (df.dtypes.getD j2 Dtype.float ≠ Dtype.object → r2[j2]? = r[j2]?))))

/-- Contract of convertir_a_fecha for an arbitrary date parser: names and
row count are preserved; every cell of a listed column is coerced, so a
value the parser cannot read becomes null (never an exception) and the
column's dtype becomes datetime; columns that are not listed keep their
cells and dtype. -/
def DateCoerceContract (parse : Cell → Option ℤ) (df : DF) (columnas : List String) : Prop :=
  (convertir_a_fecha parse df columnas).names = df.names ∧
  (convertir_a_fecha parse df columnas).rows.length = df.rows.length ∧
  (∀ (j2 : ℕ) (nm : String), df.names[j2]? = some nm →
    ((nm ∈ columnas →
       (convertir_a_fecha parse df columnas).dtypes.getD j2 Dtype.float = Dtype.datetime) ∧
     (nm ∉ columnas →
       (convertir_a_fecha parse df columnas).dtypes.getD j2 Dtype.float =
         df.dtypes.getD j2 Dtype.float))) ∧
  (∀ (i : ℕ) (r : List Cell), df.rows[i]? = some r →
    ∃ r2, (convertir_a_fecha parse df columnas).rows[i]? = some r2 ∧
      r2.length = r.length ∧
      (∀ (j2 : ℕ) (nm : String), df.names[j2]? = some nm →
        ((nm ∈ columnas → r2[j2]? = some (toDatetimeCoerce parse (getCell r j2)) ∧
           (parse (getCell r j2) = none → r2[j2]? = some Cell.null)) ∧
         (nm ∉ columnas → r2[j2]? = r[j2]?))))

example : percentile [10, 900, 5, 1000] 50 = some 455 := by
  norm_num [percentile, List.insertionSort, List.orderedInsert]
example : percentile [10, 900, 5, 1000] 25 = some (35/4) := by
  norm_num [percentile, List.insertionSort, List.orderedInsert]
example : percentile [10, 20, 15] 75 = some (35/2) := by
  norm_num [percentile, List.insertionSort, List.orderedInsert]
example : scipyMode [10, 20, 15] = some 10 := by
  norm_num [scipyMode, firstArgmax, countVal, List.insertionSort, List.orderedInsert,
    List.dedup, List.pwFilter]
example : scipyMode [3, 7, 7, 3, 1] = some 3 := by
  norm_num [scipyMode, firstArgmax, countVal, List.insertionSort, List.orderedInsert,
    List.dedup, List.pwFilter]
example : calcular_iqr [some 10, none, some 20, some 15] = some 5 := by
  norm_num [calcular_iqr, dropna, percentile, List.insertionSort, List.orderedInsert]

/-! Sanity checks of the statistics model against numpy/scipy values. -/

theorem percentile_check_median : percentile [10, 900, 5, 1000] 50 = some 455 := by
  norm_num [percentile, List.insertionSort, List.orderedInsert]

theorem percentile_check_q1 : percentile [10, 900, 5, 1000] 25 = some (35/4) := by
  norm_num [percentile, List.insertionSort, List.orderedInsert]

theorem percentile_check_q3 : percentile [10, 20, 15] 75 = some (35/2) := by
  norm_num [percentile, List.insertionSort, List.orderedInsert]

theorem scipyMode_check_unique : scipyMode [10, 20, 15] = some 10 := by
  norm_num [scipyMode, firstArgmax, countVal, List.insertionSort, List.orderedInsert,
    List.dedup, List.pwFilter]

theorem scipyMode_check_tie : scipyMode [3, 7, 7, 3, 1] = some 3 := by
  norm_num [scipyMode, firstArgmax, countVal, List.insertionSort, List.orderedInsert,
    List.dedup, List.pwFilter]

theorem calcular_iqr_check : calcular_iqr [some 10, none, some 20, some 15] = some 5 := by
  norm_num [calcular_iqr, dropna, percentile, List.insertionSort, List.orderedInsert]

/-! Core lemmas about filtered positions, the group transform, and the
statistics used by the imputation rule. -/

theorem filter_rank_get {α : Type} (p : α → Bool) (l : List α) :
    ∀ (i : ℕ) (a : α), l[i]? = some a → p a = true →
      (l.filter p)[((l.take i).filter p).length]? = some a := by
  induction l with
  | nil => intro i a h _; simp at h
  | cons x xs ih =>
    intro i a h hp
    cases i with
    | zero =>
      rw [List.getElem?_cons_zero] at h
      injection h with h
      subst h
      simp [List.filter_cons, hp]
    | succ n =>
      rw [List.getElem?_cons_succ] at h
      rw [List.take_succ_cons]
      by_cases hx : p x = true
      · rw [List.filter_cons, if_pos hx, List.filter_cons, if_pos hx]
        simp only [List.length_cons]
        rw [List.getElem?_cons_succ]
        exact ih n a h hp
      · rw [List.filter_cons, if_neg hx, List.filter_cons, if_neg hx]
        exact ih n a h hp

theorem groupSeries_get (rs : List (List Cell × Option ℚ)) (k : List Cell) (i : ℕ)
    (v : Option ℚ) (h : rs[i]? = some (k, v)) :
    (groupSeries rs k)[rankBefore rs k i]? = some v := by
  have hp : (fun r : List Cell × Option ℚ => decide (r.1 = k)) (k, v) = true := by simp
  have h2 := filter_rank_get (fun r : List Cell × Option ℚ => decide (r.1 = k)) rs i (k, v) h hp
  unfold groupSeries rankBefore
  rw [List.getElem?_map, h2]
  rfl

theorem groupSeries_mem (rs : List (List Cell × Option ℚ)) (k : List Cell) (i : ℕ)
    (v : Option ℚ) (h : rs[i]? = some (k, v)) : v ∈ groupSeries rs k :=
  List.getElem?_mem (groupSeries_get rs k i v h)

theorem fillna_getElem? (s : List (Option ℚ)) (v : Option ℚ) (i : ℕ) (c : Option ℚ)
    (h : s[i]? = some c) :
    (fillna s v)[i]? = some (fillCell v c) := by
  unfold fillna
  rw [List.getElem?_map, h]
  rfl

theorem zipWith_getElem? {α β γ : Type} (f : α → β → γ) :
    ∀ (l1 : List α) (l2 : List β) (i : ℕ) (a : α) (b : β),
      l1[i]? = some a → l2[i]? = some b → (List.zipWith f l1 l2)[i]? = some (f a b) := by
  intro l1
  induction l1 with
  | nil => intro l2 i a b h _; simp at h
  | cons x xs ih =>
    intro l2 i a b h1 h2
    cases l2 with
    | nil => simp at h2
    | cons y ys =>
      cases i with
      | zero =>
        rw [List.getElem?_cons_zero] at h1 h2
        injection h1 with h1
        injection h2 with h2
        subst h1
        subst h2
        rw [List.zipWith_cons_cons, List.getElem?_cons_zero]
      | succ n =>
        rw [List.getElem?_cons_succ] at h1 h2
        rw [List.zipWith_cons_cons, List.getElem?_cons_succ]
        exact ih ys n a b h1 h2

theorem dropna_eq_nil_iff (s : List (Option ℚ)) : dropna s = [] ↔ ∀ x ∈ s, x = none := by
  unfold dropna
  rw [List.filterMap_eq_nil_iff]
  simp

theorem percentile_nil (p : ℕ) : percentile [] p = none := rfl

theorem percentile_isSome (l : List ℚ) (p : ℕ) (h : l ≠ []) :
    ∃ q, percentile l p = some q := by
  have hne : List.insertionSort (fun a b => a ≤ b) l ≠ [] := by
    intro hs
    apply h
    have hp := List.perm_insertionSort (fun a b => a ≤ b) l
    rw [hs] at hp
    exact (hp.symm.eq_nil)
  unfold percentile
  cases hs : List.insertionSort (fun a b => a ≤ b) l with
  | nil => exact absurd hs hne
  | cons x s => exact ⟨_, rfl⟩

theorem serieMedian_isSome (s : List (Option ℚ)) (h : dropna s ≠ []) :
    ∃ q, serieMedian s = some q :=
  percentile_isSome (dropna s) 50 h

theorem serieMedian_none (s : List (Option ℚ)) (h : dropna s = []) :
    serieMedian s = none := by
  unfold serieMedian
  rw [h]
  rfl

theorem calcular_iqr_none (s : List (Option ℚ)) (h : dropna s = []) :
    calcular_iqr s = none := by
  unfold calcular_iqr
  rw [h]
  rfl

theorem calcular_iqr_isSome (s : List (Option ℚ)) (h : dropna s ≠ []) :
    ∃ d, calcular_iqr s = some d := by
  obtain ⟨q1, h1⟩ := percentile_isSome (dropna s) 25 h
  obtain ⟨q3, h3⟩ := percentile_isSome (dropna s) 75 h
  unfold calcular_iqr
  rw [h1, h3]
  exact ⟨q3 - q1, rfl⟩

theorem firstArgmax_ne_none (f : ℚ → ℕ) (x : ℚ) (xs : List ℚ) :
    firstArgmax f (x :: xs) ≠ none := by
  unfold firstArgmax
  cases firstArgmax f xs with
  | none => simp
  | some y => by_cases hc : f x < f y <;> simp [hc]

theorem scipyMode_nil : scipyMode [] = none := rfl

theorem scipyMode_isSome (l : List ℚ) (h : l ≠ []) : ∃ m, scipyMode l = some m := by
  have hd : l.dedup ≠ [] := by
    rw [Ne, List.dedup_eq_nil]
    exact h
  have hs : List.insertionSort (fun a b => a ≤ b) l.dedup ≠ [] := by
    intro hs
    apply hd
    have hp := List.perm_insertionSort (fun a b => a ≤ b) l.dedup
    rw [hs] at hp
    exact hp.symm.eq_nil
  unfold scipyMode
  cases hsrt : List.insertionSort (fun a b => a ≤ b) l.dedup with
  | nil => exact absurd hsrt hs
  | cons x s =>
    cases h2 : firstArgmax (fun v => countVal v l) (x :: s) with
    | none => exact absurd h2 (firstArgmax_ne_none _ x s)
    | some m => exact ⟨m, rfl⟩

theorem fillValue_isSome (umbral d : ℚ) (grupo : List (Option ℚ))
    (h : dropna grupo ≠ []) : ∃ m, fillValue umbral d grupo = some m := by
  unfold fillValue
  by_cases hc : umbral < d
  · rw [if_pos hc]
    exact serieMedian_isSome grupo h
  · rw [if_neg hc]
    obtain ⟨m, hm⟩ := scipyMode_isSome (dropna grupo) h
    rw [hm]
    exact ⟨m, rfl⟩

theorem fillValue_median (umbral d : ℚ) (grupo : List (Option ℚ)) (hlt : umbral < d) :
    fillValue umbral d grupo = serieMedian grupo := by
  unfold fillValue
  rw [if_pos hlt]

theorem fillValue_mode (umbral d mo : ℚ) (grupo : List (Option ℚ)) (hle : d ≤ umbral)
    (hmo : scipyMode (dropna grupo) = some mo) :
    fillValue umbral d grupo = some mo := by
  unfold fillValue
  rw [if_neg (not_lt.mpr hle)]
  simp only [hmo]

theorem imputar_fecha_some (umbral : ℚ) (grupo : List (Option ℚ)) (d : ℚ)
    (hd : calcular_iqr grupo = some d) :
    imputar_fecha umbral grupo = some (fillna grupo (fillValue umbral d grupo)) := by
  unfold imputar_fecha
  rw [hd]

theorem imputar_fecha_none_iff (umbral : ℚ) (grupo : List (Option ℚ)) :
    imputar_fecha umbral grupo = none ↔ dropna grupo = [] := by
  constructor
  · intro h
    by_contra hnn
    obtain ⟨d, hd⟩ := calcular_iqr_isSome grupo hnn
    rw [imputar_fecha_some umbral grupo d hd] at h
    exact absurd h (by simp)
  · intro h
    unfold imputar_fecha
    rw [calcular_iqr_none grupo h]

theorem mem_dropna (s : List (Option ℚ)) (x : ℚ) (h : some x ∈ s) : x ∈ dropna s :=
  List.mem_filterMap.mpr ⟨some x, h, rfl⟩

theorem groupSeries_self_mem (rs : List (List Cell × Option ℚ))
    (rr : List Cell × Option ℚ) (h : rr ∈ rs) : rr.2 ∈ groupSeries rs rr.1 := by
  obtain ⟨i, hi⟩ := List.mem_iff_getElem?.mp h
  exact groupSeries_mem rs rr.1 i rr.2 (by rw [hi])

theorem transformImpute_some_inv (umbral : ℚ) (rs : List (List Cell × Option ℚ))
    (vals : List (Option ℚ)) (ht : transformImpute umbral rs = some vals) :
    rs.any (groupFails umbral rs) = false ∧
      vals = (List.range rs.length).map (transformRow umbral rs) := by
  unfold transformImpute at ht
  by_cases ha : rs.any (groupFails umbral rs) = true
  · rw [if_pos ha] at ht
    exact absurd ht (by simp)
  · rw [if_neg ha] at ht
    injection ht with ht
    exact ⟨Bool.eq_false_iff.mpr ha, ht.symm⟩

theorem transformImpute_eq_none (umbral : ℚ) (rs : List (List Cell × Option ℚ))
    (rr : List Cell × Option ℚ) (hmem : rr ∈ rs) (hk : Cell.null ∉ rr.1)
    (hz : dropna (groupSeries rs rr.1) = []) : transformImpute umbral rs = none := by
  have hfail : groupFails umbral rs rr = true := by
    unfold groupFails
    simp only [Bool.and_eq_true, Bool.not_eq_true', decide_eq_false_iff_not,
      decide_eq_true_eq]
    exact ⟨hk, (imputar_fecha_none_iff umbral (groupSeries rs rr.1)).mpr hz⟩
  unfold transformImpute
  rw [if_pos (List.any_eq_true.mpr ⟨rr, hmem, hfail⟩)]

theorem transformImpute_isSome (umbral : ℚ) (rs : List (List Cell × Option ℚ))
    (hok : ∀ rr ∈ rs, Cell.null ∉ rr.1 → dropna (groupSeries rs rr.1) ≠ []) :
    transformImpute umbral rs =
      some ((List.range rs.length).map (transformRow umbral rs)) := by
  have hne : ¬ rs.any (groupFails umbral rs) = true := by
    intro ha
    obtain ⟨rr, hmem, hfail⟩ := List.any_eq_true.mp ha
    unfold groupFails at hfail
    simp only [Bool.and_eq_true, Bool.not_eq_true', decide_eq_false_iff_not,
      decide_eq_true_eq] at hfail
    exact hok rr hmem hfail.1
      ((imputar_fecha_none_iff umbral (groupSeries rs rr.1)).mp hfail.2)
  unfold transformImpute
  rw [if_neg hne]

theorem transformRow_eq (umbral : ℚ) (rs : List (List Cell × Option ℚ)) (i : ℕ)
    (k : List Cell) (v : Option ℚ) (h : rs[i]? = some (k, v)) (hk : Cell.null ∉ k)
    (d : ℚ) (hd : calcular_iqr (groupSeries rs k) = some d) :
    transformRow umbral rs i = fillCell (fillValue umbral d (groupSeries rs k)) v := by
  have hdg : rs.getD i ([], none) = (k, v) := by
    rw [List.getD_eq_getElem?_getD, h]
    rfl
  unfold transformRow
  simp only [hdg]
  rw [if_neg hk]
  rw [imputar_fecha_some umbral (groupSeries rs k) d hd]
  have hg := groupSeries_get rs k i v h
  have hf := fillna_getElem? (groupSeries rs k)
    (fillValue umbral d (groupSeries rs k)) _ v hg
  show (fillna (groupSeries rs k) (fillValue umbral d (groupSeries rs k))).getD
    (rankBefore rs k i) none = _
  rw [List.getD_eq_getElem?_getD, hf]
  rfl

theorem percentile_singleton (x : ℚ) (p : ℕ) : percentile [x] p = some x := by
  norm_num [percentile, List.insertionSort, List.orderedInsert]

theorem firstArgmax_eq_none (f : ℚ → ℕ) (l : List ℚ) : firstArgmax f l = none ↔ l = [] := by
  cases l with
  | nil => simp [firstArgmax]
  | cons x xs =>
    constructor
    · intro h
      exact absurd h (firstArgmax_ne_none f x xs)
    · intro h
      simp at h

theorem firstArgmax_mem (f : ℚ → ℕ) :
    ∀ (l : List ℚ) (m : ℚ), firstArgmax f l = some m → m ∈ l := by
  intro l
  induction l with
  | nil => intro m h; simp [firstArgmax] at h
  | cons x xs ih =>
    intro m h
    unfold firstArgmax at h
    cases h2 : firstArgmax f xs with
    | none =>
      simp only [h2] at h
      injection h with h
      subst h
      exact List.mem_cons_self x xs
    | some y =>
      simp only [h2] at h
      by_cases hc : f x < f y
      · rw [if_pos hc] at h
        injection h with h
        subst h
        exact List.mem_cons_of_mem x (ih y h2)
      · rw [if_neg hc] at h
        injection h with h
        subst h
        exact List.mem_cons_self x xs

theorem firstArgmax_le (f : ℚ → ℕ) :
    ∀ (l : List ℚ) (m : ℚ), firstArgmax f l = some m → ∀ y ∈ l, f y ≤ f m := by
  intro l
  induction l with
  | nil => intro m h; simp [firstArgmax] at h
  | cons x xs ih =>
    intro m h y hy
    unfold firstArgmax at h
    cases h2 : firstArgmax f xs with
    | none =>
      simp only [h2] at h
      injection h with h
      subst h
      have hxe : xs = [] := (firstArgmax_eq_none f xs).mp h2
      subst hxe
      rcases List.mem_singleton.mp hy with rfl
      exact le_refl _
    | some y2 =>
      simp only [h2] at h
      by_cases hc : f x < f y2
      · rw [if_pos hc] at h
        injection h with h
        subst h
        rcases List.mem_cons.mp hy with rfl | hy2
        · exact le_of_lt hc
        · exact ih y2 h2 y hy2
      · rw [if_neg hc] at h
        injection h with h
        subst h
        rcases List.mem_cons.mp hy with rfl | hy2
        · exact le_refl _
        · exact le_trans (ih y2 h2 y hy2) (le_of_not_lt hc)

theorem firstArgmax_first (f : ℚ → ℕ) :
    ∀ (l : List ℚ), l.Sorted (fun a b => a ≤ b) → ∀ m, firstArgmax f l = some m →
      ∀ y ∈ l, f y = f m → m ≤ y := by
  intro l
  induction l with
  | nil => intro _ m h; simp [firstArgmax] at h
  | cons x xs ih =>
    intro hs m h y hy hf
    rw [List.sorted_cons] at hs
    obtain ⟨hx, hxs⟩ := hs
    unfold firstArgmax at h
    cases h2 : firstArgmax f xs with
    | none =>
      simp only [h2] at h
      injection h with h
      subst h
      have hxe : xs = [] := (firstArgmax_eq_none f xs).mp h2
      subst hxe
      rcases List.mem_singleton.mp hy with rfl
      exact le_refl _
    | some y2 =>
      simp only [h2] at h
      by_cases hc : f x < f y2
      · rw [if_pos hc] at h
        injection h with h
        subst h
        rcases List.mem_cons.mp hy with rfl | hy2
        · rw [hf] at hc
          exact absurd hc (lt_irrefl _)
        · exact ih hxs y2 h2 y hy2 hf
      · rw [if_neg hc] at h
        injection h with h
        subst h
        rcases List.mem_cons.mp hy with rfl | hy2
        · exact le_refl _
        · exact hx y hy2

theorem scipyMode_spec (l : List ℚ) (m : ℚ) (h : scipyMode l = some m) :
    m ∈ l ∧ (∀ y ∈ l, countVal y l ≤ countVal m l) ∧
      (∀ y ∈ l, countVal y l = countVal m l → m ≤ y) := by
  unfold scipyMode at h
  have hperm := List.perm_insertionSort (fun a b => a ≤ b) l.dedup
  have hmem0 := firstArgmax_mem _ _ _ h
  have hmem : m ∈ l := List.mem_dedup.mp (hperm.mem_iff.mp hmem0)
  haveI hto : IsTotal ℚ (fun a b : ℚ => a ≤ b) := ⟨fun a b => le_total a b⟩
  haveI htr : IsTrans ℚ (fun a b : ℚ => a ≤ b) := ⟨fun _ _ _ hab hbc => le_trans hab hbc⟩
  have hsorted : (List.insertionSort (fun a b : ℚ => a ≤ b) l.dedup).Sorted
      (fun a b : ℚ => a ≤ b) := List.sorted_insertionSort _ _
  refine ⟨hmem, ?_, ?_⟩
  · intro y hy
    have hy2 : y ∈ List.insertionSort (fun a b : ℚ => a ≤ b) l.dedup :=
      hperm.mem_iff.mpr (List.mem_dedup.mpr hy)
    exact firstArgmax_le _ _ _ h y hy2
  · intro y hy hf
    have hy2 : y ∈ List.insertionSort (fun a b : ℚ => a ≤ b) l.dedup :=
      hperm.mem_iff.mpr (List.mem_dedup.mpr hy)
    exact firstArgmax_first _ _ hsorted m h y hy2 hf

/-! Lemmas relating elegir_imputacion to the per-row characterization. -/

theorem set_same {α : Type} : ∀ (l : List α) (i : ℕ) (a : α),
    l[i]? = some a → l.set i a = l := by
  intro l
  induction l with
  | nil => intro i a h; simp at h
  | cons x xs ih =>
    intro i a h
    cases i with
    | zero =>
      rw [List.getElem?_cons_zero] at h
      injection h with h
      subst h
      rfl
    | succ n =>
      rw [List.getElem?_cons_succ] at h
      show x :: xs.set n a = x :: xs
      rw [ih n a h]

theorem imputeRows_getElem? (df : DF) (agrupacion : List String) (j i : ℕ) (r : List Cell)
    (h : df.rows[i]? = some r) :
    (imputeRows df agrupacion j)[i]? =
      some (rowKey df agrupacion r, cellNum (getCell r j)) := by
  unfold imputeRows
  rw [List.getElem?_map, h]
  rfl

theorem imputeRows_length (df : DF) (agrupacion : List String) (j : ℕ) :
    (imputeRows df agrupacion j).length = df.rows.length := by
  unfold imputeRows
  rw [List.length_map]

theorem elegir_imputacion_eq (df : DF) (columna : String) (agrupacion : List String)
    (umbral : ℚ) (j : ℕ) (hj : colIdx df columna = some j) (vals : List (Option ℚ))
    (ht : transformImpute umbral (imputeRows df agrupacion j) = some vals) :
    elegir_imputacion df columna agrupacion umbral =
      some { df with rows := List.zipWith (fun r v => r.set j (optCell v)) df.rows vals } := by
  unfold elegir_imputacion
  rw [hj]
  show (match transformImpute umbral (imputeRows df agrupacion j) with
        | none => none
        | some vals => some ({ df with
            rows := List.zipWith (fun (r : List Cell) v => r.set j (optCell v)) df.rows vals } : DF)) = _
  rw [ht]

theorem elegir_imputacion_none (df : DF) (columna : String) (agrupacion : List String)
    (umbral : ℚ) (j : ℕ) (hj : colIdx df columna = some j)
    (ht : transformImpute umbral (imputeRows df agrupacion j) = none) :
    elegir_imputacion df columna agrupacion umbral = none := by
  unfold elegir_imputacion
  rw [hj]
  show (match transformImpute umbral (imputeRows df agrupacion j) with
        | none => none
        | some vals => some ({ df with
            rows := List.zipWith (fun r v => r.set j (optCell v)) df.rows vals } : DF)) = none
  rw [ht]

theorem elegir_imputacion_some_inv (df : DF) (columna : String) (agrupacion : List String)
    (umbral : ℚ) (j : ℕ) (hj : colIdx df columna = some j) (out : DF)
    (hout : elegir_imputacion df columna agrupacion umbral = some out) :
    ∃ vals, transformImpute umbral (imputeRows df agrupacion j) = some vals ∧
      out = { df with rows := List.zipWith (fun r v => r.set j (optCell v)) df.rows vals } := by
  cases ht : transformImpute umbral (imputeRows df agrupacion j) with
  | none =>
    rw [elegir_imputacion_none df columna agrupacion umbral j hj ht] at hout
    exact absurd hout (by simp)
  | some vals =>
    rw [elegir_imputacion_eq df columna agrupacion umbral j hj vals ht] at hout
    injection hout with hout
    exact ⟨vals, rfl, hout.symm⟩

theorem elegir_imputacion_isSome (df : DF) (columna : String) (agrupacion : List String)
    (umbral : ℚ) (j : ℕ) (hj : colIdx df columna = some j)
    (hok : ∀ rr ∈ imputeRows df agrupacion j, Cell.null ∉ rr.1 →
      dropna (groupSeries (imputeRows df agrupacion j) rr.1) ≠ []) :
    ∃ out, elegir_imputacion df columna agrupacion umbral = some out :=
  ⟨_, elegir_imputacion_eq df columna agrupacion umbral j hj _
    (transformImpute_isSome umbral _ hok)⟩

theorem elegir_imputacion_raises (df : DF) (columna : String) (agrupacion : List String)
    (umbral : ℚ) (j : ℕ) (hj : colIdx df columna = some j) (i : ℕ) (r : List Cell)
    (h : df.rows[i]? = some r) (hk : Cell.null ∉ rowKey df agrupacion r)
    (hz : dropna (groupSeries (imputeRows df agrupacion j)
      (rowKey df agrupacion r)) = []) :
    elegir_imputacion df columna agrupacion umbral = none :=
  elegir_imputacion_none df columna agrupacion umbral j hj
    (transformImpute_eq_none umbral _ _
      (List.getElem?_mem (imputeRows_getElem? df agrupacion j i r h)) hk hz)

theorem elegir_imputacion_some_shape (df : DF) (columna : String)
    (agrupacion : List String) (umbral : ℚ) (j : ℕ) (hj : colIdx df columna = some j)
    (out : DF) (hout : elegir_imputacion df columna agrupacion umbral = some out) :
    out.names = df.names ∧ out.dtypes = df.dtypes ∧
      out.rows.length = df.rows.length := by
  obtain ⟨vals, ht, hout2⟩ :=
    elegir_imputacion_some_inv df columna agrupacion umbral j hj out hout
  obtain ⟨-, hvals⟩ := transformImpute_some_inv umbral _ vals ht
  subst hout2
  subst hvals
  refine ⟨rfl, rfl, ?_⟩
  show (List.zipWith _ df.rows _).length = df.rows.length
  rw [List.length_zipWith, List.length_map, List.length_range, imputeRows_length]
  exact Nat.min_self _

theorem elegir_imputacion_some_live (df : DF) (columna : String)
    (agrupacion : List String) (umbral : ℚ) (j : ℕ) (hj : colIdx df columna = some j)
    (out : DF) (hout : elegir_imputacion df columna agrupacion umbral = some out)
    (i : ℕ) (r : List Cell) (h : df.rows[i]? = some r)
    (hk : Cell.null ∉ rowKey df agrupacion r) :
    dropna (groupSeries (imputeRows df agrupacion j) (rowKey df agrupacion r)) ≠ [] := by
  obtain ⟨vals, ht, -⟩ :=
    elegir_imputacion_some_inv df columna agrupacion umbral j hj out hout
  obtain ⟨hany, -⟩ := transformImpute_some_inv umbral _ vals ht
  have hmem : (rowKey df agrupacion r, cellNum (getCell r j)) ∈ imputeRows df agrupacion j :=
    List.getElem?_mem (imputeRows_getElem? df agrupacion j i r h)
  have hnf := List.any_eq_false.mp hany _ hmem
  unfold groupFails at hnf
  simp only [Bool.and_eq_true, Bool.not_eq_true', decide_eq_false_iff_not,
    decide_eq_true_eq, not_and] at hnf
  intro hz
  exact hnf hk
    ((imputar_fecha_none_iff umbral (groupSeries (imputeRows df agrupacion j)
      (rowKey df agrupacion r))).mpr hz)

theorem elegir_imputacion_some_rows (df : DF) (columna : String)
    (agrupacion : List String) (umbral : ℚ) (j : ℕ) (hj : colIdx df columna = some j)
    (out : DF) (hout : elegir_imputacion df columna agrupacion umbral = some out)
    (i : ℕ) (r : List Cell) (h : df.rows[i]? = some r)
    (hk : Cell.null ∉ rowKey df agrupacion r) (d : ℚ)
    (hd : calcular_iqr (groupSeries (imputeRows df agrupacion j)
      (rowKey df agrupacion r)) = some d) :
    out.rows[i]? = some (r.set j (optCell (fillCell
      (fillValue umbral d
        (groupSeries (imputeRows df agrupacion j) (rowKey df agrupacion r)))
      (cellNum (getCell r j))))) := by
  obtain ⟨vals, ht, hout2⟩ :=
    elegir_imputacion_some_inv df columna agrupacion umbral j hj out hout
  obtain ⟨-, hvals⟩ := transformImpute_some_inv umbral _ vals ht
  subst hout2
  subst hvals
  have hrs := imputeRows_getElem? df agrupacion j i r h
  have hi : i < (imputeRows df agrupacion j).length := (List.getElem?_eq_some.mp hrs).1
  have hv : ((List.range (imputeRows df agrupacion j).length).map
      (transformRow umbral (imputeRows df agrupacion j)))[i]? =
      some (transformRow umbral (imputeRows df agrupacion j) i) := by
    rw [List.getElem?_map, List.getElem?_range hi, Option.map_some']
  rw [transformRow_eq umbral _ i _ _ hrs hk d hd] at hv
  exact zipWith_getElem? _ df.rows _ i r _ h hv

theorem colIdxAux_lt (name : String) :
    ∀ (ns : List String) (j : ℕ), colIdxAux name ns = some j → j < ns.length := by
  intro ns
  induction ns with
  | nil => intro j h; simp [colIdxAux] at h
  | cons n ns2 ih =>
    intro j h
    unfold colIdxAux at h
    by_cases hn : n = name
    · rw [if_pos hn] at h
      injection h with h
      subst h
      simp
    · rw [if_neg hn] at h
      cases h2 : colIdxAux name ns2 with
      | none => rw [h2] at h; simp at h
      | some j2 =>
        rw [h2] at h
        injection h with h
        subst h
        have := ih j2 h2
        simp only [List.length_cons]
        omega

theorem getCell_set_self (r : List Cell) (j : ℕ) (c : Cell) (h : j < r.length) :
    getCell (r.set j c) j = c := by
  unfold getCell
  rw [List.getD_eq_getElem?_getD, List.getElem?_set, if_pos rfl, if_pos h]
  rfl

theorem getCell_eq_some (r : List Cell) (j : ℕ) (q : ℚ)
    (h : getCell r j = Cell.num q) : r[j]? = some (Cell.num q) := by
  unfold getCell at h
  rw [List.getD_eq_getElem?_getD] at h
  cases h2 : r[j]? with
  | none =>
    rw [h2] at h
    simp at h
  | some c =>
    rw [h2] at h
    simp only [Option.getD_some] at h
    rw [h]

theorem DF_eq (a b : DF) (h1 : a.names = b.names) (h2 : a.dtypes = b.dtypes)
    (h3 : a.rows = b.rows) : a = b := by
  cases a
  cases b
  cases h1
  cases h2
  cases h3
  rfl

/-! The claims about elegir_imputacion. -/

/-- C1 (amended: restricted to groups whose grouping key contains no
null value and that hold at least one non-null target value; pandas
groupby drops null-keyed rows from every group, so such a group is not
filled at all, and on a group with no non-null value the call raises an
uncaught TypeError instead of returning, see the counterexample): for
every group with at least one non-null target value, whenever
elegir_imputacion returns a frame, it fills the group's null target cells
with the group's linear-interpolation median when the group's IQR (75th
minus 25th percentile, linear interpolation) strictly exceeds the
threshold, and otherwise (including IQR exactly equal to the threshold)
with the group's mode: a most frequent non-null value, ties broken
towards the smallest value. -/
theorem elegir_imputacion_median_mode_rule (df : DF) (columna : String)
    (agrupacion : List String) (umbral : ℚ) (j : ℕ) (hj : colIdx df columna = some j)
    (k : List Cell) (hk : Cell.null ∉ k) (grupo : List (Option ℚ))
    (hg : grupo = groupSeries (imputeRows df agrupacion j) k)
    (hnn : dropna grupo ≠ []) (d : ℚ) (hd : calcular_iqr grupo = some d) :
    MedianModeRule df columna agrupacion umbral j k grupo d := by
  obtain ⟨mo, hmo⟩ := scipyMode_isSome (dropna grupo) hnn
  obtain ⟨hmem, hmax, htie⟩ := scipyMode_spec (dropna grupo) mo hmo
  refine ⟨serieMedian_isSome grupo hnn, ⟨mo, hmo, hmem, hmax, htie⟩, ?_⟩
  intro out hout i r hr hrk hcell
  have hk2 : Cell.null ∉ rowKey df agrupacion r := by rw [hrk]; exact hk
  have hd2 : calcular_iqr (groupSeries (imputeRows df agrupacion j)
      (rowKey df agrupacion r)) = some d := by
    rw [hrk, ← hg]; exact hd
  have hrow := elegir_imputacion_some_rows df columna agrupacion umbral j hj out hout
    i r hr hk2 d hd2
  rw [hrk, ← hg, hcell] at hrow
  have hcn : fillCell (fillValue umbral d grupo) (cellNum Cell.null) =
      fillValue umbral d grupo := rfl
  rw [hcn] at hrow
  constructor
  · intro hlt
    rw [hrow, fillValue_median umbral d grupo hlt]
  · intro hle
    rw [hrow, fillValue_mode umbral d mo grupo hle hmo, hmo]

/-- C1 counterexample, refuting the unrestricted claim: in dfX1 the rows
with group key equal to a null cell form a group holding the non-null
value 5 and a null; its IQR is 0, not above the threshold 60, and its
mode is 5, so the claim says the null cell becomes 5 — but the call
returns with that cell still null (and nulls the other row too), because
pandas drops null group keys. -/
theorem elegir_imputacion_median_mode_cex :
    groupSeries (imputeRows dfX1 ["g"] 1) [Cell.null] = [some 5, none] ∧
    calcular_iqr [some 5, none] = some 0 ∧ ((0 : ℚ) ≤ 60) ∧
    scipyMode (dropna [some 5, none]) = some 5 ∧
    elegir_imputacion dfX1 "x" ["g"] 60 =
      some { names := ["g", "x"], dtypes := [Dtype.object, Dtype.float],
             rows := [[Cell.null, Cell.null], [Cell.null, Cell.null]] } := by
  refine ⟨by decide, ?_, by norm_num, ?_, by decide⟩
  · show calcular_iqr [some 5, none] = some 0
    unfold calcular_iqr
    have hd : dropna [some 5, none] = [5] := by decide
    rw [hd, percentile_singleton, percentile_singleton]
    norm_num
  · show scipyMode (dropna [some 5, none]) = some 5
    decide

/-- C1 witness: the wide-spread group of dfW1, IQR 3665/4 above the
threshold 60, exercising the median branch. -/
theorem elegir_imputacion_median_mode_witness :
    colIdx dfW1 "x" = some 1 ∧ Cell.null ∉ [Cell.str "b"] ∧
    ([some 10, none, some 900, some 5, some 1000] : List (Option ℚ)) =
      groupSeries (imputeRows dfW1 ["g"] 1) [Cell.str "b"] ∧
    dropna [some 10, none, some 900, some 5, some 1000] ≠ [] ∧
    calcular_iqr [some 10, none, some 900, some 5, some 1000] = some (3665/4) ∧
    MedianModeRule dfW1 "x" ["g"] 60 1 [Cell.str "b"]
      [some 10, none, some 900, some 5, some 1000] (3665/4) := by
  have hd : calcular_iqr [some 10, none, some 900, some 5, some 1000] = some (3665/4) := by
    norm_num [calcular_iqr, dropna, percentile, List.insertionSort, List.orderedInsert]
  exact ⟨by decide, by decide, by decide, by decide, hd,
    elegir_imputacion_median_mode_rule dfW1 "x" ["g"] 60 1 (by decide) [Cell.str "b"]
      (by decide) _ (by decide) (by decide) (3665/4) hd⟩

/-- C2 (amended: restricted to groups whose key contains no null value,
and the entirely-null clause replaced by a raise: a null-keyed group with
a non-null value ends up entirely null, and on a group whose target
values are all null the call raises an uncaught TypeError instead of
returning, see the counterexample): whenever elegir_imputacion returns a
frame, the target column holds a non-null numeric value in every row of
a properly-keyed group; and a properly-keyed, inhabited group whose
target values are all null makes the call raise. -/
theorem elegir_imputacion_null_invariant (df : DF) (columna : String)
    (agrupacion : List String) (umbral : ℚ) (j : ℕ) (hj : colIdx df columna = some j)
    (hwf : ∀ r ∈ df.rows, r.length = df.names.length)
    (k : List Cell) (hk : Cell.null ∉ k) (grupo : List (Option ℚ))
    (hg : grupo = groupSeries (imputeRows df agrupacion j) k) :
    GroupNullInvariant df columna agrupacion umbral j k grupo := by
  have hjlt : j < df.names.length := colIdxAux_lt columna df.names j hj
  constructor
  · intro out hout i r hr hrk
    have hk2 : Cell.null ∉ rowKey df agrupacion r := by rw [hrk]; exact hk
    have hnn : dropna (groupSeries (imputeRows df agrupacion j)
        (rowKey df agrupacion r)) ≠ [] :=
      elegir_imputacion_some_live df columna agrupacion umbral j hj out hout i r hr hk2
    obtain ⟨d, hd⟩ := calcular_iqr_isSome _ hnn
    have hrow := elegir_imputacion_some_rows df columna agrupacion umbral j hj out hout
      i r hr hk2 d hd
    have hjr : j < r.length := by
      rw [hwf r (List.getElem?_mem hr)]
      exact hjlt
    refine ⟨_, hrow, ?_⟩
    rw [getCell_set_self _ _ _ hjr]
    cases hc : cellNum (getCell r j) with
    | some x =>
      exact ⟨x, rfl⟩
    | none =>
      obtain ⟨m, hm⟩ := fillValue_isSome umbral d
        (groupSeries (imputeRows df agrupacion j) (rowKey df agrupacion r)) hnn
      have hm2 : fillCell (fillValue umbral d (groupSeries (imputeRows df agrupacion j)
        (rowKey df agrupacion r))) none = some m := hm
      rw [hm2]
      exact ⟨m, rfl⟩
  · intro hz i r hr hrk
    have hk2 : Cell.null ∉ rowKey df agrupacion r := by rw [hrk]; exact hk
    refine elegir_imputacion_raises df columna agrupacion umbral j hj i r hr hk2 ?_
    rw [hrk, ← hg]
    exact hz

/-- C2 counterexample, refuting the unrestricted claim twice over: the
null-keyed group of dfX2 holds the non-null value 5 before the call, yet
the call returns with every row of that group null; and dfX2r's single
properly-keyed group is entirely null, and instead of leaving it null the
call raises (the TypeError of the scalar-NaN percentile unpack). -/
theorem elegir_imputacion_null_invariant_cex :
    (some (5 : ℚ)) ∈ groupSeries (imputeRows dfX2 ["g"] 1) [Cell.null] ∧
    elegir_imputacion dfX2 "x" ["g"] 60 =
      some { names := ["g", "x"], dtypes := [Dtype.object, Dtype.float],
             rows := [[Cell.null, Cell.null], [Cell.null, Cell.null]] } ∧
    elegir_imputacion dfX2r "x" ["g"] 60 = none := by decide

/-- C2 witness: the ordinary group of dfW2 with one null and one non-null
target value. -/
theorem elegir_imputacion_null_invariant_witness :
    colIdx dfW2 "x" = some 1 ∧ (∀ r ∈ dfW2.rows, r.length = dfW2.names.length) ∧
    Cell.null ∉ [Cell.str "a"] ∧
    ([some 10, none] : List (Option ℚ)) =
      groupSeries (imputeRows dfW2 ["g"] 1) [Cell.str "a"] ∧
    GroupNullInvariant dfW2 "x" ["g"] 60 1 [Cell.str "a"] [some 10, none] :=
  ⟨by decide, by decide, by decide, by decide,
    elegir_imputacion_null_invariant dfW2 "x" ["g"] 60 1 (by decide) (by decide)
      [Cell.str "a"] (by decide) _ (by decide)⟩

/-- C3: refuted — the claim says nothing raises on a group whose target
values are all null, but np.nanpercentile on the empty dropna result
takes numpy's size == 0 branch and returns a single scalar NaN (via
np.nanmean, ignoring the [25, 75] list), so the two-element q1, q3
unpack in calcular_iqr raises a TypeError that no handler catches (the
try/except around the mode only catches IndexError), and the exception
propagates out of elegir_imputacion: on dfX3, whose single properly-keyed
group has only null target values, the call raises (none) instead of
returning with the nulls intact. -/
theorem elegir_imputacion_all_null_raises :
    dropna ([none, none] : List (Option ℚ)) = [] ∧
    calcular_iqr ([none, none] : List (Option ℚ)) = none ∧
    imputar_fecha 60 [none, none] = none ∧
    groupSeries (imputeRows dfX3 ["g"] 1) [Cell.str "a"] = [none, none] ∧
    elegir_imputacion dfX3 "x" ["g"] 60 = none := by decide

/-- C4 (amended: provided no row holds a null in any grouping column and
every group has a non-null target value; otherwise pandas drops the
null-keyed rows from every group and the transform overwrites their
target cells with NaN, and an all-null group makes the call raise an
uncaught TypeError, see the counterexample): elegir_imputacion returns a
frame that preserves column names, dtypes, row count and row order,
touches no column other than the target column, and leaves every numeric
(non-null) target cell unchanged. -/
theorem elegir_imputacion_frame_effects (df : DF) (columna : String)
    (agrupacion : List String) (umbral : ℚ) (j : ℕ) (hj : colIdx df columna = some j)
    (hkeys : ∀ r ∈ df.rows, Cell.null ∉ rowKey df agrupacion r)
    (hlive : ∀ r ∈ df.rows, dropna (groupSeries (imputeRows df agrupacion j)
      (rowKey df agrupacion r)) ≠ []) :
    FrameEffectContract df columna agrupacion umbral j := by
  have hok : ∀ rr ∈ imputeRows df agrupacion j, Cell.null ∉ rr.1 →
      dropna (groupSeries (imputeRows df agrupacion j) rr.1) ≠ [] := by
    intro rr hmem hku
    obtain ⟨r, hr, hrr⟩ := List.mem_map.mp hmem
    rw [← hrr]
    exact hlive r hr
  obtain ⟨out, hout⟩ := elegir_imputacion_isSome df columna agrupacion umbral j hj hok
  obtain ⟨hnames, hdtypes, hlen⟩ :=
    elegir_imputacion_some_shape df columna agrupacion umbral j hj out hout
  refine ⟨out, hout, hnames, hdtypes, hlen, ?_⟩
  intro i r hr
  have hk2 := hkeys r (List.getElem?_mem hr)
  have hnn := hlive r (List.getElem?_mem hr)
  obtain ⟨d, hd⟩ := calcular_iqr_isSome _ hnn
  have hrow := elegir_imputacion_some_rows df columna agrupacion umbral j hj out hout
    i r hr hk2 d hd
  refine ⟨_, hrow, List.length_set r j _, ?_, ?_⟩
  · intro j2 hne
    rw [List.getElem?_set, if_neg (fun hh => hne hh.symm)]
  · intro q hq
    rw [hq]
    exact set_same r j (Cell.num q) (getCell_eq_some r j q hq)

/-- C4 counterexample, refuting the unrestricted claim twice over: in
dfX4 the only row has a null grouping cell and the non-null target value
5, and the call returns with that non-null value overwritten by null; and
in dfX4r, whose grouping keys are all proper but whose second group is
entirely null, the call raises, preserving nothing at all. -/
theorem elegir_imputacion_frame_effects_cex :
    getCell [Cell.null, Cell.num 5] 1 = Cell.num 5 ∧
    dfX4.rows[0]? = some [Cell.null, Cell.num 5] ∧
    elegir_imputacion dfX4 "x" ["g"] 60 =
      some { names := ["g", "x"], dtypes := [Dtype.object, Dtype.float],
             rows := [[Cell.null, Cell.null]] } ∧
    (∀ r ∈ dfX4r.rows, Cell.null ∉ rowKey dfX4r ["g"] r) ∧
    elegir_imputacion dfX4r "x" ["g"] 60 = none := by
  decide

/-- C4 witness: dfW4, two proper groups with non-null values, three
columns. -/
theorem elegir_imputacion_frame_effects_witness :
    colIdx dfW4 "x" = some 1 ∧
    (∀ r ∈ dfW4.rows, Cell.null ∉ rowKey dfW4 ["g"] r) ∧
    (∀ r ∈ dfW4.rows, dropna (groupSeries (imputeRows dfW4 ["g"] 1)
      (rowKey dfW4 ["g"] r)) ≠ []) ∧
    FrameEffectContract dfW4 "x" ["g"] 60 1 :=
  ⟨by decide, by decide, by decide,
    elegir_imputacion_frame_effects dfW4 "x" ["g"] 60 1 (by decide) (by decide)
      (by decide)⟩

/-- C5 (amended: provided no row holds a null in any grouping column and
the target column is numeric; otherwise pandas drops null-keyed rows and
the transform overwrites their non-null target cells with NaN, changing
the frame, see the counterexample): when the target column contains no
nulls, elegir_imputacion returns the frame unchanged, so running the
imputer twice equals running it once whenever the first run returns with
every null filled. -/
theorem elegir_imputacion_idempotent (df : DF) (columna : String)
    (agrupacion : List String) (umbral : ℚ) (j : ℕ) (hj : colIdx df columna = some j)
    (hkeys : ∀ r ∈ df.rows, Cell.null ∉ rowKey df agrupacion r)
    (hfilled : ∀ r ∈ df.rows, ∃ q, getCell r j = Cell.num q) :
    elegir_imputacion df columna agrupacion umbral = some df := by
  have hok : ∀ rr ∈ imputeRows df agrupacion j, Cell.null ∉ rr.1 →
      dropna (groupSeries (imputeRows df agrupacion j) rr.1) ≠ [] := by
    intro rr hmem hku hz
    obtain ⟨r, hr, hrr⟩ := List.mem_map.mp hmem
    obtain ⟨q, hq⟩ := hfilled r hr
    have hv : rr.2 ∈ groupSeries (imputeRows df agrupacion j) rr.1 :=
      groupSeries_self_mem _ rr hmem
    have hq2 : rr.2 = some q := by
      rw [← hrr]
      show cellNum (getCell r j) = some q
      rw [hq]
      rfl
    have hmem2 : q ∈ dropna (groupSeries (imputeRows df agrupacion j) rr.1) :=
      mem_dropna _ q (hq2 ▸ hv)
    rw [hz] at hmem2
    exact absurd hmem2 (List.not_mem_nil q)
  obtain ⟨out, hout⟩ := elegir_imputacion_isSome df columna agrupacion umbral j hj hok
  obtain ⟨hnames, hdtypes, hlen⟩ :=
    elegir_imputacion_some_shape df columna agrupacion umbral j hj out hout
  have hrows : out.rows = df.rows := by
    apply List.ext_getElem?
    intro i
    cases hr : df.rows[i]? with
    | none =>
      apply List.getElem?_eq_none
      rw [hlen]
      exact List.getElem?_eq_none_iff.mp hr
    | some r =>
      have hk2 := hkeys r (List.getElem?_mem hr)
      have hnn : dropna (groupSeries (imputeRows df agrupacion j)
          (rowKey df agrupacion r)) ≠ [] :=
        hok _ (List.getElem?_mem (imputeRows_getElem? df agrupacion j i r hr)) hk2
      obtain ⟨d, hd⟩ := calcular_iqr_isSome _ hnn
      have hrow := elegir_imputacion_some_rows df columna agrupacion umbral j hj out hout
        i r hr hk2 d hd
      obtain ⟨q, hq⟩ := hfilled r (List.getElem?_mem hr)
      rw [hrow, hq]
      exact congrArg some (set_same r j (Cell.num q) (getCell_eq_some r j q hq))
  rw [hout, DF_eq out df hnames hdtypes hrows]

/-- C5 counterexample, refuting the unrestricted claim: the target column
of dfX5 has no nulls, yet elegir_imputacion does not return the frame
unchanged, because the single row has a null grouping cell and its
non-null target value is overwritten with null. -/
theorem elegir_imputacion_idempotent_cex :
    (∀ r ∈ dfX5.rows, getCell r 1 ≠ Cell.null) ∧
    elegir_imputacion dfX5 "x" ["g"] 60 ≠ some dfX5 := by decide

/-- C5 witness: dfW5, a fully imputed numeric column over one proper
group. -/
theorem elegir_imputacion_idempotent_witness :
    colIdx dfW5 "x" = some 1 ∧
    (∀ r ∈ dfW5.rows, Cell.null ∉ rowKey dfW5 ["g"] r) ∧
    (∀ r ∈ dfW5.rows, ∃ q, getCell r 1 = Cell.num q) ∧
    elegir_imputacion dfW5 "x" ["g"] 60 = some dfW5 := by
  have hfilled : ∀ r ∈ dfW5.rows, ∃ q, getCell r 1 = Cell.num q := by
    intro r hr
    rcases List.mem_cons.mp hr with rfl | hr2
    · exact ⟨10, rfl⟩
    rcases List.mem_cons.mp hr2 with rfl | hr3
    · exact ⟨20, rfl⟩
    exact absurd hr3 (List.not_mem_nil r)
  exact ⟨by decide, by decide, hfilled,
    elegir_imputacion_idempotent dfW5 "x" ["g"] 60 1 (by decide) (by decide) hfilled⟩

/-- C6: evaluar_fila returns exactly the rows of the dataset whose target
column is null and whose fraction of non-null values over the given key
columns is strictly below the threshold; the frame's columns are kept
(the helper proportion column is dropped again), the returned rows are a
subsequence of the input rows in their original order, and the input
frame itself is not modified (the function is a pure selection). -/
theorem evaluar_fila_characterization (df : DF) (columna_nula : String)
    (columnas_clave : List String) (umbral : ℚ) (j : ℕ)
    (hj : colIdx df columna_nula = some j) (hks : columnas_clave ≠ []) :
    (evaluar_fila df columna_nula columnas_clave umbral).names = df.names ∧
    (evaluar_fila df columna_nula columnas_clave umbral).dtypes = df.dtypes ∧
    (evaluar_fila df columna_nula columnas_clave umbral).rows =
      df.rows.filter (fun r =>
        decide (getCell r j = Cell.null) &&
        decide ((notnullKeyCount df columnas_clave r : ℚ) /
          (columnas_clave.length : ℚ) < umbral)) ∧
    (evaluar_fila df columna_nula columnas_clave umbral).rows.Sublist df.rows := by
  have hlen : decide (columnas_clave.length ≠ 0) = true :=
    decide_eq_true (fun hz => hks (List.length_eq_zero.mp hz))
  unfold evaluar_fila
  simp only [hj]
  refine ⟨rfl, rfl, ?_, ?_⟩
  · show List.filter _ (List.filter _ df.rows) = _
    rw [List.filter_filter]
    apply List.filter_congr
    intro r _
    rw [hlen]
    rw [Bool.true_and, Bool.and_comm]
    rfl
  · show (List.filter _ (List.filter _ df.rows)).Sublist df.rows
    exact List.Sublist.trans (List.filter_sublist _) (List.filter_sublist _)

/-- C6 witness: dfW6 with key columns a and b, threshold 7/10; of the two
null-target rows only the one with a single non-null key cell (fraction
1/2) is returned. -/
theorem evaluar_fila_characterization_witness :
    colIdx dfW6 "x" = some 0 ∧ (["a", "b"] : List String) ≠ [] ∧
    ((evaluar_fila dfW6 "x" ["a", "b"] (7/10)).names = dfW6.names ∧
      (evaluar_fila dfW6 "x" ["a", "b"] (7/10)).dtypes = dfW6.dtypes ∧
      (evaluar_fila dfW6 "x" ["a", "b"] (7/10)).rows =
        dfW6.rows.filter (fun r =>
          decide (getCell r 0 = Cell.null) &&
          decide ((notnullKeyCount dfW6 ["a", "b"] r : ℚ) /
            ((["a", "b"] : List String).length : ℚ) < 7/10)) ∧
      (evaluar_fila dfW6 "x" ["a", "b"] (7/10)).rows.Sublist dfW6.rows) :=
  ⟨by decide, by decide,
    evaluar_fila_characterization dfW6 "x" ["a", "b"] (7/10) 0 (by decide) (by decide)⟩

/-! Lemmas about limpiar_texto. -/

theorem colIdxAux_getElem? (nm : String) :
    ∀ (ns : List String) (j : ℕ), colIdxAux nm ns = some j → ns[j]? = some nm := by
  intro ns
  induction ns with
  | nil => intro j h; simp [colIdxAux] at h
  | cons n ns2 ih =>
    intro j h
    unfold colIdxAux at h
    by_cases hn : n = nm
    · rw [if_pos hn] at h
      injection h with h
      subst h
      rw [List.getElem?_cons_zero, hn]
    · rw [if_neg hn] at h
      cases h2 : colIdxAux nm ns2 with
      | none => rw [h2] at h; simp at h
      | some j2 =>
        rw [h2] at h
        injection h with h
        subst h
        rw [List.getElem?_cons_succ]
        exact ih j2 h2

theorem colIdxAux_nodup_eq (nm : String) :
    ∀ (ns : List String), ns.Nodup → ∀ (j : ℕ), ns[j]? = some nm →
      colIdxAux nm ns = some j := by
  intro ns
  induction ns with
  | nil => intro _ j h; simp at h
  | cons n ns2 ih =>
    intro hnd j h
    rw [List.nodup_cons] at hnd
    obtain ⟨hnin, hnd2⟩ := hnd
    cases j with
    | zero =>
      rw [List.getElem?_cons_zero] at h
      injection h with h
      unfold colIdxAux
      rw [if_pos h]
    | succ j2 =>
      rw [List.getElem?_cons_succ] at h
      have hmem : nm ∈ ns2 := List.getElem?_mem h
      have hne : n ≠ nm := fun he => hnin (he ▸ hmem)
      unfold colIdxAux
      rw [if_neg hne, ih hnd2 j2 h]
      rfl

theorem getCell_congr (r1 r : List Cell) (j : ℕ) (h : r1[j]? = r[j]?) :
    getCell r1 j = getCell r j := by
  unfold getCell
  rw [List.getD_eq_getElem?_getD, List.getD_eq_getElem?_getD, h]

theorem mapCol_rows_getElem? (d : DF) (j : ℕ) (f : Cell → Cell) (i : ℕ) (r : List Cell)
    (hr : d.rows[i]? = some r) :
    (mapCol d j f).rows[i]? = some (r.set j (f (getCell r j))) := by
  unfold mapCol
  show (d.rows.map _)[i]? = _
  rw [List.getElem?_map, hr]
  rfl

theorem limpiarStep_none (conservar : List String) (d : DF) (c : String)
    (h : colIdx d c = none) : limpiarStep conservar d c = d := by
  unfold limpiarStep
  rw [h]

theorem limpiarStep_some (conservar : List String) (d : DF) (c : String) (j : ℕ)
    (h : colIdx d c = some j) :
    limpiarStep conservar d c =
      (if d.dtypes.getD j Dtype.float = Dtype.object then
        (if c ∈ conservar then mapCol d j cellStrip
         else mapCol (mapCol d j cellStrip) j cellLower)
       else d) := by
  unfold limpiarStep
  rw [h]

theorem limpiarStep_cases (conservar : List String) (d : DF) (c : String) :
    limpiarStep conservar d c = d ∨
    (∃ j, limpiarStep conservar d c = mapCol d j cellStrip) ∨
    (∃ j, limpiarStep conservar d c = mapCol (mapCol d j cellStrip) j cellLower) := by
  cases hc : colIdx d c with
  | none => exact Or.inl (limpiarStep_none conservar d c hc)
  | some j =>
    rw [limpiarStep_some conservar d c j hc]
    by_cases hdt : d.dtypes.getD j Dtype.float = Dtype.object
    · rw [if_pos hdt]
      by_cases hcons : c ∈ conservar
      · rw [if_pos hcons]
        exact Or.inr (Or.inl ⟨j, rfl⟩)
      · rw [if_neg hcons]
        exact Or.inr (Or.inr ⟨j, rfl⟩)
    · rw [if_neg hdt]
      exact Or.inl rfl

theorem limpiarStep_names (conservar : List String) (d : DF) (c : String) :
    (limpiarStep conservar d c).names = d.names := by
  rcases limpiarStep_cases conservar d c with h | ⟨j, h⟩ | ⟨j, h⟩ <;> rw [h] <;> rfl

theorem limpiarStep_dtypes (conservar : List String) (d : DF) (c : String) :
    (limpiarStep conservar d c).dtypes = d.dtypes := by
  rcases limpiarStep_cases conservar d c with h | ⟨j, h⟩ | ⟨j, h⟩ <;> rw [h] <;> rfl

theorem limpiarStep_num_rows (conservar : List String) (d : DF) (c : String) :
    (limpiarStep conservar d c).rows.length = d.rows.length := by
  rcases limpiarStep_cases conservar d c with h | ⟨j, h⟩ | ⟨j, h⟩ <;> rw [h] <;>
    simp [mapCol]

theorem limpiarStep_getElem_col (conservar : List String) (d : DF) (c : String) (i : ℕ)
    (r : List Cell) (hr : d.rows[i]? = some r) (hwr : r.length = d.names.length)
    (hnames : d.names.Nodup) :
    ∃ r1, (limpiarStep conservar d c).rows[i]? = some r1 ∧ r1.length = r.length ∧
      ∀ (j2 : ℕ) (nm : String), d.names[j2]? = some nm →
        ((nm = c → d.dtypes.getD j2 Dtype.float = Dtype.object →
            r1[j2]? = some (cleanCell (decide (c ∈ conservar)) (getCell r j2))) ∧
         (nm ≠ c → r1[j2]? = r[j2]?) ∧
         (d.dtypes.getD j2 Dtype.float ≠ Dtype.object → r1[j2]? = r[j2]?)) := by
  cases hc : colIdx d c with
  | none =>
    rw [limpiarStep_none conservar d c hc]
    refine ⟨r, hr, rfl, ?_⟩
    intro j2 nm hnm
    refine ⟨?_, fun _ => rfl, fun _ => rfl⟩
    intro heq _
    subst heq
    have hc2 : colIdxAux nm d.names = none := hc
    rw [colIdxAux_nodup_eq nm d.names hnames j2 hnm] at hc2
    exact absurd hc2 (by simp)
  | some j =>
    have hjn : d.names[j]? = some c := colIdxAux_getElem? c d.names j hc
    have hjlen : j < d.names.length := colIdxAux_lt c d.names j hc
    have hjr : j < r.length := by rw [hwr]; exact hjlen
    rw [limpiarStep_some conservar d c j hc]
    by_cases hdt : d.dtypes.getD j Dtype.float = Dtype.object
    · rw [if_pos hdt]
      by_cases hcons : c ∈ conservar
      · rw [if_pos hcons]
        refine ⟨_, mapCol_rows_getElem? d j cellStrip i r hr, List.length_set r j _, ?_⟩
        intro j2 nm hnm
        refine ⟨?_, ?_, ?_⟩
        · intro heq _
          subst heq
          have hc2 : colIdxAux nm d.names = some j := hc
          have hj2 : colIdxAux nm d.names = some j2 :=
            colIdxAux_nodup_eq nm d.names hnames j2 hnm
          rw [hc2] at hj2
          injection hj2 with hj2
          subst hj2
          rw [List.getElem?_set, if_pos rfl, if_pos hjr]
          have hdec : decide (nm ∈ conservar) = true := decide_eq_true hcons
          rw [cleanCell, hdec]
          simp only [if_true]
        · intro hne
          have hne2 : j ≠ j2 := by
            intro heq
            subst heq
            rw [hjn] at hnm
            injection hnm with hnm
            exact hne hnm.symm
          rw [List.getElem?_set_ne hne2]
        · intro hdt2
          by_cases hjj : j = j2
          · subst hjj
            exact absurd hdt hdt2
          · rw [List.getElem?_set_ne hjj]
      · rw [if_neg hcons]
        have step1 := mapCol_rows_getElem? d j cellStrip i r hr
        have step2 := mapCol_rows_getElem? (mapCol d j cellStrip) j cellLower i _ step1
        rw [getCell_set_self r j _ hjr, List.set_set] at step2
        refine ⟨_, step2, ?_, ?_⟩
        · rw [List.length_set]
        · intro j2 nm hnm
          refine ⟨?_, ?_, ?_⟩
          · intro heq _
            subst heq
            have hc2 : colIdxAux nm d.names = some j := hc
            have hj2 : colIdxAux nm d.names = some j2 :=
              colIdxAux_nodup_eq nm d.names hnames j2 hnm
            rw [hc2] at hj2
            injection hj2 with hj2
            subst hj2
            rw [List.getElem?_set, if_pos rfl, if_pos hjr]
            have hdec : decide (nm ∈ conservar) = false := decide_eq_false hcons
            rw [cleanCell, hdec]
            simp only [Bool.false_eq_true, if_false]
          · intro hne
            have hne2 : j ≠ j2 := by
              intro heq
              subst heq
              rw [hjn] at hnm
              injection hnm with hnm
              exact hne hnm.symm
            rw [List.getElem?_set_ne hne2]
          · intro hdt2
            by_cases hjj : j = j2
            · subst hjj
              exact absurd hdt hdt2
            · rw [List.getElem?_set_ne hjj]
    · rw [if_neg hdt]
      refine ⟨r, hr, rfl, ?_⟩
      intro j2 nm hnm
      refine ⟨?_, fun _ => rfl, fun _ => rfl⟩
      intro heq hdt2
      subst heq
      have hc2 : colIdxAux nm d.names = some j := hc
      have hj2 : colIdxAux nm d.names = some j2 :=
        colIdxAux_nodup_eq nm d.names hnames j2 hnm
      rw [hc2] at hj2
      injection hj2 with hj2
      subst hj2
      exact absurd hdt2 hdt

theorem limpiar_texto_names :
    ∀ (cs : List String) (d : DF) (conservar : List String),
      (limpiar_texto d cs conservar).names = d.names := by
  intro cs
  induction cs with
  | nil => intro d _; rfl
  | cons c cs2 ih =>
    intro d conservar
    show (limpiar_texto (limpiarStep conservar d c) cs2 conservar).names = d.names
    rw [ih (limpiarStep conservar d c) conservar, limpiarStep_names]

theorem limpiar_texto_dtypes :
    ∀ (cs : List String) (d : DF) (conservar : List String),
      (limpiar_texto d cs conservar).dtypes = d.dtypes := by
  intro cs
  induction cs with
  | nil => intro d _; rfl
  | cons c cs2 ih =>
    intro d conservar
    show (limpiar_texto (limpiarStep conservar d c) cs2 conservar).dtypes = d.dtypes
    rw [ih (limpiarStep conservar d c) conservar, limpiarStep_dtypes]

theorem limpiar_texto_num_rows :
    ∀ (cs : List String) (d : DF) (conservar : List String),
      (limpiar_texto d cs conservar).rows.length = d.rows.length := by
  intro cs
  induction cs with
  | nil => intro d _; rfl
  | cons c cs2 ih =>
    intro d conservar
    show (limpiar_texto (limpiarStep conservar d c) cs2 conservar).rows.length =
      d.rows.length
    rw [ih (limpiarStep conservar d c) conservar, limpiarStep_num_rows]

theorem limpiarStep_wf (conservar : List String) (d : DF) (c : String)
    (hnames : d.names.Nodup) (hwf : ∀ r0 ∈ d.rows, r0.length = d.names.length) :
    ∀ r0 ∈ (limpiarStep conservar d c).rows,
      r0.length = (limpiarStep conservar d c).names.length := by
  intro r0 hr0
  obtain ⟨i0, hi0⟩ := List.mem_iff_getElem?.mp hr0
  have hi0lt : i0 < (limpiarStep conservar d c).rows.length :=
    (List.getElem?_eq_some.mp hi0).1
  have hi0lt2 : i0 < d.rows.length := by
    rw [← limpiarStep_num_rows conservar d c]
    exact hi0lt
  cases hd0 : d.rows[i0]? with
  | none =>
    rw [List.getElem?_eq_none_iff] at hd0
    omega
  | some rr =>
    obtain ⟨r1x, hr1x, hlen1x, _⟩ :=
      limpiarStep_getElem_col conservar d c i0 rr hd0
        (hwf rr (List.getElem?_mem hd0)) hnames
    rw [hi0] at hr1x
    injection hr1x with hr1x
    rw [limpiarStep_names, hr1x, hlen1x]
    exact hwf rr (List.getElem?_mem hd0)

theorem limpiar_texto_pointwise :
    ∀ (cs : List String) (d : DF) (conservar : List String), cs.Nodup → d.names.Nodup →
      (∀ r0 ∈ d.rows, r0.length = d.names.length) →
      ∀ (i : ℕ) (r : List Cell), d.rows[i]? = some r →
        ∃ r2, (limpiar_texto d cs conservar).rows[i]? = some r2 ∧ r2.length = r.length ∧
          (∀ (j2 : ℕ) (nm : String), d.names[j2]? = some nm →
            ((nm ∈ cs → d.dtypes.getD j2 Dtype.float = Dtype.object →
               r2[j2]? = some (cleanCell (decide (nm ∈ conservar)) (getCell r j2))) ∧
             (nm ∉ cs → r2[j2]? = r[j2]?) ∧
             (d.dtypes.getD j2 Dtype.float ≠ Dtype.object → r2[j2]? = r[j2]?))) := by
  intro cs
  induction cs with
  | nil =>
    intro d conservar _ _ _ i r hr
    exact ⟨r, hr, rfl, fun j2 nm _ => ⟨fun hmem => absurd hmem (List.not_mem_nil nm),
      fun _ => rfl, fun _ => rfl⟩⟩
  | cons c cs2 ih =>
    intro d conservar hnd hnames hwf i r hr
    rw [List.nodup_cons] at hnd
    obtain ⟨hcnin, hnd2⟩ := hnd
    obtain ⟨r1, hr1, hlen1, hcol1⟩ :=
      limpiarStep_getElem_col conservar d c i r hr (hwf r (List.getElem?_mem hr)) hnames
    have hnames2 : (limpiarStep conservar d c).names = d.names :=
      limpiarStep_names conservar d c
    have hdtypes2 : (limpiarStep conservar d c).dtypes = d.dtypes :=
      limpiarStep_dtypes conservar d c
    have hnodup2 : (limpiarStep conservar d c).names.Nodup := by
      rw [hnames2]
      exact hnames
    obtain ⟨r2, hr2, hlen2, hcol2⟩ := ih (limpiarStep conservar d c) conservar hnd2
      hnodup2 (limpiarStep_wf conservar d c hnames hwf) i r1 hr1
    refine ⟨r2, hr2, by rw [hlen2, hlen1], ?_⟩
    intro j2 nm hnm
    have hnm2 : (limpiarStep conservar d c).names[j2]? = some nm := by
      rw [hnames2]
      exact hnm
    obtain ⟨hA1, hA2, hA3⟩ := hcol1 j2 nm hnm
    obtain ⟨hB1, hB2, hB3⟩ := hcol2 j2 nm hnm2
    rw [hdtypes2] at hB1 hB3
    refine ⟨?_, ?_, ?_⟩
    · intro hmem hdt
      rcases List.mem_cons.mp hmem with heq | hmem2
      · subst heq
        rw [hB2 hcnin]
        exact hA1 rfl hdt
      · rw [hB1 hmem2 hdt,
          getCell_congr r1 r j2 (hA2 (fun heq => hcnin (heq ▸ hmem2)))]
    · intro hnin
      have hnc : nm ≠ c := fun heq => hnin (heq ▸ List.mem_cons_self c cs2)
      have hnin2 : nm ∉ cs2 := fun hm => hnin (List.mem_cons_of_mem c hm)
      rw [hB2 hnin2, hA2 hnc]
    · intro hdt
      rw [hB3 hdt, hA3 hdt]

/-- C7: limpiar_texto trims surrounding whitespace from the listed
text-typed (object) columns and lowercases them except for the columns in
the exclusion list; listed columns that are not text-typed, and columns
that are not listed, keep all their cells, and names, dtypes, row count
and row order are preserved. -/
theorem limpiar_texto_characterization (df : DF) (columnas conservar : List String)
    (hnd : columnas.Nodup) (hnames : df.names.Nodup)
    (hwf : ∀ r ∈ df.rows, r.length = df.names.length) :
    CleanTextContract df columnas conservar :=
  ⟨limpiar_texto_names columnas df conservar,
   limpiar_texto_dtypes columnas df conservar,
   limpiar_texto_num_rows columnas df conservar,
   limpiar_texto_pointwise columnas df conservar hnd hnames hwf⟩

/-- C7 witness: dfW7 with a stripped-and-lowercased column, a
stripped-only column in the exclusion list, a listed name that is absent,
and an untouched numeric column. -/
theorem limpiar_texto_characterization_witness :
    (["s", "t", "zz"] : List String).Nodup ∧ dfW7.names.Nodup ∧
    (∀ r ∈ dfW7.rows, r.length = dfW7.names.length) ∧
    CleanTextContract dfW7 ["s", "t", "zz"] ["t"] :=
  ⟨by decide, by decide, by decide,
    limpiar_texto_characterization dfW7 ["s", "t", "zz"] ["t"]
      (by decide) (by decide) (by decide)⟩

/-- C10: limpiar_texto is total over its column-name list: a listed
column that is absent from the frame, or present but not object-typed, is
silently skipped by the membership and dtype guard, and when every listed
column is of that kind the frame is returned unchanged (no exception is
modelled anywhere: the function is total by construction). -/
theorem limpiar_texto_skips (df : DF) (columnas conservar : List String)
    (h : ∀ c ∈ columnas, ∀ j, colIdx df c = some j →
      df.dtypes.getD j Dtype.float ≠ Dtype.object) :
    limpiar_texto df columnas conservar = df := by
  induction columnas with
  | nil => rfl
  | cons c cs ih =>
    have hstep : limpiarStep conservar df c = df := by
      cases hc : colIdx df c with
      | none => exact limpiarStep_none conservar df c hc
      | some j =>
        rw [limpiarStep_some conservar df c j hc,
          if_neg (h c (List.mem_cons_self c cs) j hc)]
    show limpiar_texto (limpiarStep conservar df c) cs conservar = df
    rw [hstep]
    exact ih (fun c2 hc2 => h c2 (List.mem_cons_of_mem c hc2))

/-- C10 witness: dfW10 with a listed numeric column and a listed absent
column; the frame is unchanged. -/
theorem limpiar_texto_skips_witness :
    (∀ c ∈ (["n", "zz"] : List String), ∀ j, colIdx dfW10 c = some j →
      dfW10.dtypes.getD j Dtype.float ≠ Dtype.object) ∧
    limpiar_texto dfW10 ["n", "zz"] [] = dfW10 := by
  have h : ∀ c ∈ (["n", "zz"] : List String), ∀ j, colIdx dfW10 c = some j →
      dfW10.dtypes.getD j Dtype.float ≠ Dtype.object := by
    intro c hc j hj
    rcases List.mem_cons.mp hc with rfl | hc2
    · have h0 : colIdx dfW10 "n" = some 0 := by decide
      rw [h0] at hj
      injection hj with hj
      subst hj
      decide
    rcases List.mem_cons.mp hc2 with rfl | hc3
    · have h0 : colIdx dfW10 "zz" = none := by decide
      rw [h0] at hj
      simp at hj
    · exact absurd hc3 (List.not_mem_nil c)
  exact ⟨h, limpiar_texto_skips dfW10 ["n", "zz"] [] h⟩

/-! Lemmas about convertir_a_fecha. -/

theorem getD_set_self {α : Type} (l : List α) (j : ℕ) (v dflt : α) (h : j < l.length) :
    (l.set j v).getD j dflt = v := by
  rw [List.getD_eq_getElem?_getD, List.getElem?_set, if_pos rfl, if_pos h]
  rfl

theorem getD_set_ne {α : Type} (l : List α) (j j2 : ℕ) (v dflt : α) (h : j ≠ j2) :
    (l.set j v).getD j2 dflt = l.getD j2 dflt := by
  rw [List.getD_eq_getElem?_getD, List.getElem?_set_ne h, ← List.getD_eq_getElem?_getD]

theorem fechaStep_none (parse : Cell → Option ℤ) (d : DF) (c : String)
    (h : colIdx d c = none) : fechaStep parse d c = d := by
  unfold fechaStep
  rw [h]

theorem fechaStep_some (parse : Cell → Option ℤ) (d : DF) (c : String) (j : ℕ)
    (h : colIdx d c = some j) :
    fechaStep parse d c =
      { d with
        rows := d.rows.map (fun r => r.set j (toDatetimeCoerce parse (getCell r j))),
        dtypes := d.dtypes.set j Dtype.datetime } := by
  unfold fechaStep
  rw [h]

theorem fechaStep_names (parse : Cell → Option ℤ) (d : DF) (c : String) :
    (fechaStep parse d c).names = d.names := by
  cases hc : colIdx d c with
  | none => rw [fechaStep_none parse d c hc]
  | some j => rw [fechaStep_some parse d c j hc]

theorem fechaStep_num_rows (parse : Cell → Option ℤ) (d : DF) (c : String) :
    (fechaStep parse d c).rows.length = d.rows.length := by
  cases hc : colIdx d c with
  | none => rw [fechaStep_none parse d c hc]
  | some j =>
    rw [fechaStep_some parse d c j hc]
    exact List.length_map _ _

theorem fechaStep_dtypes_len (parse : Cell → Option ℤ) (d : DF) (c : String) :
    (fechaStep parse d c).dtypes.length = d.dtypes.length := by
  cases hc : colIdx d c with
  | none => rw [fechaStep_none parse d c hc]
  | some j =>
    rw [fechaStep_some parse d c j hc]
    exact List.length_set _ _ _

theorem fechaStep_getElem_col (parse : Cell → Option ℤ) (d : DF) (c : String) (i : ℕ)
    (r : List Cell) (hr : d.rows[i]? = some r) (hwr : r.length = d.names.length)
    (hnames : d.names.Nodup) :
    ∃ r1, (fechaStep parse d c).rows[i]? = some r1 ∧ r1.length = r.length ∧
      ∀ (j2 : ℕ) (nm : String), d.names[j2]? = some nm →
        ((nm = c → r1[j2]? = some (toDatetimeCoerce parse (getCell r j2))) ∧
         (nm ≠ c → r1[j2]? = r[j2]?)) := by
  cases hc : colIdx d c with
  | none =>
    rw [fechaStep_none parse d c hc]
    refine ⟨r, hr, rfl, ?_⟩
    intro j2 nm hnm
    refine ⟨?_, fun _ => rfl⟩
    intro heq
    subst heq
    have hc2 : colIdxAux nm d.names = none := hc
    rw [colIdxAux_nodup_eq nm d.names hnames j2 hnm] at hc2
    exact absurd hc2 (by simp)
  | some j =>
    rw [fechaStep_some parse d c j hc]
    have hjn : d.names[j]? = some c := colIdxAux_getElem? c d.names j hc
    have hjr : j < r.length := by
      rw [hwr]
      exact colIdxAux_lt c d.names j hc
    have hrow : (d.rows.map
        (fun r0 => r0.set j (toDatetimeCoerce parse (getCell r0 j))))[i]? =
        some (r.set j (toDatetimeCoerce parse (getCell r j))) := by
      rw [List.getElem?_map, hr]
      rfl
    refine ⟨_, hrow, List.length_set r j _, ?_⟩
    intro j2 nm hnm
    constructor
    · intro heq
      subst heq
      have hc2 : colIdxAux nm d.names = some j := hc
      have hj2 : colIdxAux nm d.names = some j2 :=
        colIdxAux_nodup_eq nm d.names hnames j2 hnm
      rw [hc2] at hj2
      injection hj2 with hj2
      subst hj2
      rw [List.getElem?_set, if_pos rfl, if_pos hjr]
    · intro hne
      have hne2 : j ≠ j2 := by
        intro heq
        subst heq
        rw [hjn] at hnm
        injection hnm with hnm
        exact hne hnm.symm
      rw [List.getElem?_set_ne hne2]

theorem fechaStep_dtype_col (parse : Cell → Option ℤ) (d : DF) (c : String)
    (hnames : d.names.Nodup) (hdts : d.dtypes.length = d.names.length) :
    ∀ (j2 : ℕ) (nm : String), d.names[j2]? = some nm →
      ((nm = c → (fechaStep parse d c).dtypes.getD j2 Dtype.float = Dtype.datetime) ∧
       (nm ≠ c → (fechaStep parse d c).dtypes.getD j2 Dtype.float =
         d.dtypes.getD j2 Dtype.float)) := by
  intro j2 nm hnm
  cases hc : colIdx d c with
  | none =>
    rw [fechaStep_none parse d c hc]
    refine ⟨?_, fun _ => rfl⟩
    intro heq
    subst heq
    have hc2 : colIdxAux nm d.names = none := hc
    rw [colIdxAux_nodup_eq nm d.names hnames j2 hnm] at hc2
    exact absurd hc2 (by simp)
  | some j =>
    rw [fechaStep_some parse d c j hc]
    have hjn : d.names[j]? = some c := colIdxAux_getElem? c d.names j hc
    have hjd : j < d.dtypes.length := by
      rw [hdts]
      exact colIdxAux_lt c d.names j hc
    constructor
    · intro heq
      subst heq
      have hc2 : colIdxAux nm d.names = some j := hc
      have hj2 : colIdxAux nm d.names = some j2 :=
        colIdxAux_nodup_eq nm d.names hnames j2 hnm
      rw [hc2] at hj2
      injection hj2 with hj2
      subst hj2
      exact getD_set_self d.dtypes j Dtype.datetime Dtype.float hjd
    · intro hne
      have hne2 : j ≠ j2 := by
        intro heq
        subst heq
        rw [hjn] at hnm
        injection hnm with hnm
        exact hne hnm.symm
      exact getD_set_ne d.dtypes j j2 Dtype.datetime Dtype.float hne2

theorem fechaStep_wf (parse : Cell → Option ℤ) (d : DF) (c : String)
    (hnames : d.names.Nodup) (hwf : ∀ r0 ∈ d.rows, r0.length = d.names.length) :
    ∀ r0 ∈ (fechaStep parse d c).rows, r0.length = (fechaStep parse d c).names.length := by
  intro r0 hr0
  obtain ⟨i0, hi0⟩ := List.mem_iff_getElem?.mp hr0
  have hi0lt : i0 < (fechaStep parse d c).rows.length := (List.getElem?_eq_some.mp hi0).1
  have hi0lt2 : i0 < d.rows.length := by
    rw [← fechaStep_num_rows parse d c]
    exact hi0lt
  cases hd0 : d.rows[i0]? with
  | none =>
    rw [List.getElem?_eq_none_iff] at hd0
    omega
  | some rr =>
    obtain ⟨r1x, hr1x, hlen1x, _⟩ :=
      fechaStep_getElem_col parse d c i0 rr hd0 (hwf rr (List.getElem?_mem hd0)) hnames
    rw [hi0] at hr1x
    injection hr1x with hr1x
    rw [fechaStep_names, hr1x, hlen1x]
    exact hwf rr (List.getElem?_mem hd0)

theorem convertir_names (parse : Cell → Option ℤ) :
    ∀ (cs : List String) (d : DF), (convertir_a_fecha parse d cs).names = d.names := by
  intro cs
  induction cs with
  | nil => intro d; rfl
  | cons c cs2 ih =>
    intro d
    show (convertir_a_fecha parse (fechaStep parse d c) cs2).names = d.names
    rw [ih (fechaStep parse d c), fechaStep_names]

theorem convertir_num_rows (parse : Cell → Option ℤ) :
    ∀ (cs : List String) (d : DF),
      (convertir_a_fecha parse d cs).rows.length = d.rows.length := by
  intro cs
  induction cs with
  | nil => intro d; rfl
  | cons c cs2 ih =>
    intro d
    show (convertir_a_fecha parse (fechaStep parse d c) cs2).rows.length = d.rows.length
    rw [ih (fechaStep parse d c), fechaStep_num_rows]

theorem convertir_dtype_col (parse : Cell → Option ℤ) :
    ∀ (cs : List String) (d : DF), cs.Nodup → d.names.Nodup →
      d.dtypes.length = d.names.length →
      ∀ (j2 : ℕ) (nm : String), d.names[j2]? = some nm →
        ((nm ∈ cs → (convertir_a_fecha parse d cs).dtypes.getD j2 Dtype.float =
           Dtype.datetime) ∧
         (nm ∉ cs → (convertir_a_fecha parse d cs).dtypes.getD j2 Dtype.float =
           d.dtypes.getD j2 Dtype.float)) := by
  intro cs
  induction cs with
  | nil =>
    intro d _ _ _ j2 nm _
    exact ⟨fun hmem => absurd hmem (List.not_mem_nil nm), fun _ => rfl⟩
  | cons c cs2 ih =>
    intro d hnd hnames hdts j2 nm hnm
    rw [List.nodup_cons] at hnd
    obtain ⟨hcnin, hnd2⟩ := hnd
    have hnames2 := fechaStep_names parse d c
    have hnodup2 : (fechaStep parse d c).names.Nodup := by
      rw [hnames2]
      exact hnames
    have hdts2 : (fechaStep parse d c).dtypes.length = (fechaStep parse d c).names.length := by
      rw [fechaStep_dtypes_len, hnames2]
      exact hdts
    have hnm2 : (fechaStep parse d c).names[j2]? = some nm := by
      rw [hnames2]
      exact hnm
    obtain ⟨hA1, hA2⟩ := fechaStep_dtype_col parse d c hnames hdts j2 nm hnm
    obtain ⟨hB1, hB2⟩ := ih (fechaStep parse d c) hnd2 hnodup2 hdts2 j2 nm hnm2
    constructor
    · intro hmem
      rcases List.mem_cons.mp hmem with heq | hmem2
      · subst heq
        show (convertir_a_fecha parse (fechaStep parse d nm) cs2).dtypes.getD j2
          Dtype.float = Dtype.datetime
        rw [hB2 hcnin]
        exact hA1 rfl
      · exact hB1 hmem2
    · intro hnin
      have hnc : nm ≠ c := fun heq => hnin (heq ▸ List.mem_cons_self c cs2)
      have hnin2 : nm ∉ cs2 := fun hm => hnin (List.mem_cons_of_mem c hm)
      show (convertir_a_fecha parse (fechaStep parse d c) cs2).dtypes.getD j2
        Dtype.float = d.dtypes.getD j2 Dtype.float
      rw [hB2 hnin2]
      exact hA2 hnc

theorem convertir_pointwise (parse : Cell → Option ℤ) :
    ∀ (cs : List String) (d : DF), cs.Nodup → d.names.Nodup →
      (∀ r0 ∈ d.rows, r0.length = d.names.length) →
      ∀ (i : ℕ) (r : List Cell), d.rows[i]? = some r →
        ∃ r2, (convertir_a_fecha parse d cs).rows[i]? = some r2 ∧
          r2.length = r.length ∧
          (∀ (j2 : ℕ) (nm : String), d.names[j2]? = some nm →
            ((nm ∈ cs → r2[j2]? = some (toDatetimeCoerce parse (getCell r j2))) ∧
             (nm ∉ cs → r2[j2]? = r[j2]?))) := by
  intro cs
  induction cs with
  | nil =>
    intro d _ _ _ i r hr
    exact ⟨r, hr, rfl, fun j2 nm _ =>
      ⟨fun hmem => absurd hmem (List.not_mem_nil nm), fun _ => rfl⟩⟩
  | cons c cs2 ih =>
    intro d hnd hnames hwf i r hr
    rw [List.nodup_cons] at hnd
    obtain ⟨hcnin, hnd2⟩ := hnd
    obtain ⟨r1, hr1, hlen1, hcol1⟩ :=
      fechaStep_getElem_col parse d c i r hr (hwf r (List.getElem?_mem hr)) hnames
    have hnames2 := fechaStep_names parse d c
    have hnodup2 : (fechaStep parse d c).names.Nodup := by
      rw [hnames2]
      exact hnames
    obtain ⟨r2, hr2, hlen2, hcol2⟩ := ih (fechaStep parse d c) hnd2 hnodup2
      (fechaStep_wf parse d c hnames hwf) i r1 hr1
    refine ⟨r2, hr2, by rw [hlen2, hlen1], ?_⟩
    intro j2 nm hnm
    have hnm2 : (fechaStep parse d c).names[j2]? = some nm := by
      rw [hnames2]
      exact hnm
    obtain ⟨hA1, hA2⟩ := hcol1 j2 nm hnm
    obtain ⟨hB1, hB2⟩ := hcol2 j2 nm hnm2
    constructor
    · intro hmem
      rcases List.mem_cons.mp hmem with heq | hmem2
      · subst heq
        rw [hB2 hcnin]
        exact hA1 rfl
      · rw [hB1 hmem2,
          getCell_congr r1 r j2 (hA2 (fun heq => hcnin (heq ▸ hmem2)))]
    · intro hnin
      have hnc : nm ≠ c := fun heq => hnin (heq ▸ List.mem_cons_self c cs2)
      have hnin2 : nm ∉ cs2 := fun hm => hnin (List.mem_cons_of_mem c hm)
      rw [hB2 hnin2, hA2 hnc]

/-- C9: convertir_a_fecha coerces every listed (present) column cell
through the date parser so that every unparseable value becomes null in
the output, never raising; the coerced column is retyped to datetime,
and unlisted columns keep their cells and dtype. -/
theorem convertir_a_fecha_coerce (parse : Cell → Option ℤ) (df : DF)
    (columnas : List String) (hnd : columnas.Nodup) (hnames : df.names.Nodup)
    (hwf : ∀ r ∈ df.rows, r.length = df.names.length)
    (hdts : df.dtypes.length = df.names.length) :
    DateCoerceContract parse df columnas := by
  refine ⟨convertir_names parse columnas df, convertir_num_rows parse columnas df,
    convertir_dtype_col parse columnas df hnd hnames hdts, ?_⟩
  intro i r hr
  obtain ⟨r2, hr2, hlen2, hcol2⟩ :=
    convertir_pointwise parse columnas df hnd hnames hwf i r hr
  refine ⟨r2, hr2, hlen2, ?_⟩
  intro j2 nm hnm
  obtain ⟨h1, h2⟩ := hcol2 j2 nm hnm
  refine ⟨?_, h2⟩
  intro hmem
  refine ⟨h1 hmem, ?_⟩
  intro hparse
  rw [h1 hmem]
  unfold toDatetimeCoerce
  rw [hparse]

/-- C9 witness: dfW9 with a parser accepting one of the two strings; the
unparseable value becomes null, the other becomes a date, the column is
retyped, the numeric column is untouched. -/
theorem convertir_a_fecha_coerce_witness :
    (["d"] : List String).Nodup ∧ dfW9.names.Nodup ∧
    (∀ r ∈ dfW9.rows, r.length = dfW9.names.length) ∧
    dfW9.dtypes.length = dfW9.names.length ∧
    DateCoerceContract parseW9 dfW9 ["d"] :=
  ⟨by decide, by decide, by decide, by decide,
    convertir_a_fecha_coerce parseW9 dfW9 ["d"] (by decide) (by decide) (by decide)
      (by decide)⟩

/-- C8: resumen_nulos reports, for every column of the frame, the count
of its null values and that count divided by the number of rows as a
percentage (the permutation fixes one summary row per column with exactly
those values), and the result is sorted in descending order of the null
percentage. -/
theorem resumen_nulos_spec (df : DF) :
    (resumen_nulos df).Perm (df.names.enum.map (fun e =>
      (e.2, countNullsAt df e.1,
        ((countNullsAt df e.1 : ℚ) / (df.rows.length : ℚ)) * 100))) ∧
    (resumen_nulos df).Sorted (fun a b => b.2.2 ≤ a.2.2) := by
  haveI hto : IsTotal (String × ℕ × ℚ) (fun a b => b.2.2 ≤ a.2.2) :=
    ⟨fun a b => le_total b.2.2 a.2.2⟩
  haveI htr : IsTrans (String × ℕ × ℚ) (fun a b => b.2.2 ≤ a.2.2) :=
    ⟨fun _ _ _ hab hbc => le_trans hbc hab⟩
  constructor
  · exact List.perm_insertionSort _ _
  · exact List.sorted_insertionSort _ _

end Proyecto
